import Mathlib

/-!
# backend-hexagonal: authentication core

A shallow embedding of the authentication core of the repository:
`internal/service/auth_service.go`, the two transport gates
(`internal/adapters/grpc/middleware/auth_interceptor.go` and
`internal/adapters/http/middleware/jwt_middleware.go`), the user service
(`internal/service/user_service.go`), `CreateUser` and `GetUser` of the gRPC
server (`internal/adapters/grpc/user_server.go`), `Get` of the HTTP user
handler (`internal/adapters/http/user_handler.go`), the Mongo adapter
(`internal/adapters/mongo/user_repo_mongo.go`) and the in-memory repository
of `tests/service/user_service_test.go`.

Conventions of the embedding:

* a Go `string` is a Lean `String`; `strings.HasPrefix` and
  `strings.TrimPrefix` work on its character list;
* a `time.Time` is a number of nanoseconds since the Unix epoch;
* a pointer `*domain.User` is an address into an explicit heap, so that
  aliasing between the service and a repository is visible;
* the third-party libraries (`golang-jwt/jwt/v5`, `x/crypto/bcrypt`) are not
  part of the repository: the control flow of `jwt.Parse` is written out, its
  serialisation and its MAC are parameters (`JWTLib`), and so is the bcrypt
  hash (`BcryptLib`); the collection behind the Mongo adapter is a list of
  documents with an optional failure of the driver;
* JSON numbers are integers (the `exp` written by the service is one, and
  `float64` represents it exactly).
-/

namespace BackendHexagonal

/-! ## Go strings -/

/-- Go `strings.HasPrefix`. -/
def HasPrefix (s p : String) : Bool :=
  p.data.isPrefixOf s.data

/-- Go `strings.TrimPrefix`. -/
def TrimPrefix (s p : String) : String :=
  if HasPrefix s p then ⟨s.data.drop p.data.length⟩ else s

/-! ## Time -/

/-- A `time.Time`, in nanoseconds since the Unix epoch. -/
abbrev Time := Nat

/-- Nanoseconds in a second. -/
def Second : Nat := 1000000000

/-- Go `time.Hour`, as a `time.Duration` in nanoseconds. -/
def Hour : Nat := 3600 * Second

/-- Go `Time.Add`. -/
def Time.Add (t : Time) (d : Nat) : Time := t + d

/-- Go `Time.Unix`: whole seconds since the epoch. -/
def Time.Unix (t : Time) : Int := ((t / Second : Nat) : Int)

/-! ## Object ids -/

/-- A `primitive.ObjectID`: twelve bytes. -/
structure ObjectID where
  bytes : List (Fin 256)
  size : bytes.length = 12
deriving DecidableEq

/-- The zero value of `primitive.ObjectID`. -/
def NilObjectID : ObjectID := ⟨List.replicate 12 0, by decide⟩

/-- One hexadecimal digit, lower case as `hex.EncodeToString` writes it. -/
def hexDigit (n : Nat) : Char :=
  "0123456789abcdef".data.getD n '0'

/-- Value of a hexadecimal digit, either case, as `hex.Decode` reads it. -/
def fromHexChar (c : Char) : Option Nat :=
  if '0' ≤ c ∧ c ≤ '9' then some (c.toNat - '0'.toNat)
  else if 'a' ≤ c ∧ c ≤ 'f' then some (c.toNat - 'a'.toNat + 10)
  else if 'A' ≤ c ∧ c ≤ 'F' then some (c.toNat - 'A'.toNat + 10)
  else none

/-- The two digits of one byte. -/
def hexByte (b : Fin 256) : List Char :=
  [hexDigit (b.val / 16), hexDigit (b.val % 16)]

/-- Go `ObjectID.Hex`. -/
def ObjectID.Hex (id : ObjectID) : String :=
  ⟨id.bytes.flatMap hexByte⟩

/-- Go `hex.Decode` on a character list: pairs of digits to bytes. -/
def hexDecode : List Char → Option (List (Fin 256))
  | [] => some []
  | [_] => none
  | c :: d :: rest =>
    match fromHexChar c, fromHexChar d, hexDecode rest with
    | some hi, some lo, some bs => some (Fin.ofNat (hi * 16 + lo) :: bs)
    | _, _, _ => none

/-! ## Errors -/

/-- The claim validation failures of golang-jwt that `errors.Is` can find in
an `ErrTokenInvalidClaims`. -/
inductive ClaimError where
  | ErrTokenExpired
  | ErrTokenNotValidYet
  | ErrInvalidType
deriving DecidableEq, Repr

/-- The gRPC status codes the adapters use. -/
inductive Code where
  | Unauthenticated
  | InvalidArgument
  | NotFound
  | Internal
deriving DecidableEq, Repr

/-- Go `error` values that occur in the authentication core. -/
inductive Error where
  /-- The value of `errors.New(msg)`. -/
  | errorsNew (msg : String)
  /-- The jwt error `ErrTokenMalformed`. -/
  | ErrTokenMalformed
  /-- The jwt error `ErrTokenUnverifiable`, with the reason. -/
  | ErrTokenUnverifiable (msg : String)
  /-- The jwt error `ErrTokenSignatureInvalid`. -/
  | ErrTokenSignatureInvalid
  /-- The jwt error `ErrTokenInvalidClaims`, joined with its causes. -/
  | ErrTokenInvalidClaims (causes : List ClaimError)
  /-- The bcrypt error `ErrHashTooShort`. -/
  | ErrHashTooShort
  /-- The bcrypt error `ErrMismatchedHashAndPassword`. -/
  | ErrMismatchedHashAndPassword
  /-- Any other error of bcrypt. -/
  | bcrypt (msg : String)
  /-- An error of the document store driver. -/
  | store (msg : String)
  /-- The driver error `mongo.ErrNoDocuments`. -/
  | ErrNoDocuments
  /-- The bson error `ErrInvalidHex` and the errors of `hex.Decode`. -/
  | ErrInvalidHex
  /-- The value of `status.Error(code, msg)`. -/
  | status (code : Code) (msg : String)
deriving DecidableEq, Repr

/-- Go `primitive.ObjectIDFromHex`. -/
def ObjectIDFromHex (s : String) : Except Error ObjectID :=
  if s.length = 24 then
    match hexDecode s.data with
    | some bs => if hb : bs.length = 12 then .ok ⟨bs, hb⟩ else .error .ErrInvalidHex
    | none => .error .ErrInvalidHex
  else .error .ErrInvalidHex

/-! ## Domain types -/

/-- The record `domain.User`. -/
structure User where
  ID : ObjectID
  Name : String
  Email : String
  Password : String
  CreatedAt : Time
deriving DecidableEq

/-- The record `domain.AuthRequest`. -/
structure AuthRequest where
  Email : String
  Password : String
deriving DecidableEq

/-- The record `domain.RegisterRequest`. -/
structure RegisterRequest where
  Name : String
  Email : String
  Password : String
deriving DecidableEq

/-- The record `domain.JWTClaims`. -/
structure JWTClaims where
  UserID : ObjectID
  Email : String
  Exp : Int
deriving DecidableEq

/-! ## golang-jwt -/

/-- A JSON value as `encoding/json` decodes it into an `interface{}`. -/
inductive JSONValue where
  | null
  | bool (b : Bool)
  | number (n : Int)
  | string (s : String)
  | array
  | object
deriving DecidableEq, Repr

/-- The map `jwt.MapClaims`, as an association list. -/
abbrev MapClaims := List (String × JSONValue)

/-- Go map indexing `claims[key]`, with presence. -/
def MapClaims.get (c : MapClaims) (key : String) : Option JSONValue :=
  c.lookup key

/-- The signing methods golang-jwt registers. -/
inductive SigningMethod where
  | HS256 | HS384 | HS512
  | RS256 | RS384 | RS512
  | PS256 | PS384 | PS512
  | ES256 | ES384 | ES512
  | EdDSA
  | none
deriving DecidableEq, Repr

/-- Whether the method is a `*jwt.SigningMethodHMAC`. -/
def SigningMethod.isHMAC : SigningMethod → Bool
  | .HS256 | .HS384 | .HS512 => true
  | _ => false

/-- The header name of a method, `SigningMethod.Alg`. -/
def SigningMethod.Alg : SigningMethod → String
  | .HS256 => "HS256" | .HS384 => "HS384" | .HS512 => "HS512"
  | .RS256 => "RS256" | .RS384 => "RS384" | .RS512 => "RS512"
  | .PS256 => "PS256" | .PS384 => "PS384" | .PS512 => "PS512"
  | .ES256 => "ES256" | .ES384 => "ES384" | .ES512 => "ES512"
  | .EdDSA => "EdDSA"
  | .none => "none"

/-- Go `jwt.GetSigningMethod`: the method registered under a header name. -/
def GetSigningMethod (alg : String) : Option SigningMethod :=
  [SigningMethod.HS256, .HS384, .HS512, .RS256, .RS384, .RS512, .PS256, .PS384,
    .PS512, .ES256, .ES384, .ES512, .EdDSA, .none].find? (fun m => m.Alg == alg)

/-- What the three segments of a compact token decode to. -/
structure Segments where
  /-- The first two segments as received, joined by a dot: what is signed. -/
  signingString : String
  /-- The `alg` entry of the header, when it is a string. -/
  alg : Option String
  /-- The decoded claims. -/
  claims : MapClaims
  /-- The decoded signature. -/
  signature : String
deriving DecidableEq

/-- The parts of golang-jwt that are data formats and cryptography, taken as
parameters: the base64url/JSON serialisation and the MAC. -/
structure JWTLib where
  /-- Go `Token.SigningString`: encoded header and claims joined by a dot. -/
  SigningString : SigningMethod → MapClaims → String
  /-- Go `SigningMethodHMAC.Sign` followed by the segment encoding. -/
  Sign : SigningMethod → String → String → String
  /-- Decoding of the three segments of a token; `none` when a segment is not
  base64url or not JSON. The decoded signature is given in encoded form. -/
  DecodeSegments : String → Option Segments

/-- The token `SignedString` writes for a method, claims and key. -/
def JWTLib.compact (lib : JWTLib) (m : SigningMethod) (claims : MapClaims) (key : String) :
    String :=
  lib.SigningString m claims ++ "." ++ lib.Sign m (lib.SigningString m claims) key

/-- The codec reads back the token it wrote for a method, claims and key:
the token has three segments and they decode to what was encoded. -/
def JWTLib.ReadsBack (lib : JWTLib) (m : SigningMethod) (claims : MapClaims) (key : String) :
    Prop :=
  (lib.compact m claims key).data.count '.' = 2 ∧
  lib.DecodeSegments (lib.compact m claims key) =
    some ⟨lib.SigningString m claims, some m.Alg, claims,
      lib.Sign m (lib.SigningString m claims) key⟩

/-- A `*jwt.Token` as `jwt.Parse` returns it. -/
structure Token where
  Method : SigningMethod
  Claims : MapClaims
  Signature : String
  Valid : Bool
deriving DecidableEq

/-- Go `Token.SignedString` for a token made by `jwt.NewWithClaims`. -/
def SignedString (lib : JWTLib) (method : SigningMethod) (claims : MapClaims)
    (key : String) : Except Error String :=
  .ok (lib.compact method claims key)

/-- The numeric date of a claim, as `MapClaims.parseNumericDate` reads it:
absent and zero give no date, a value that is not a number is an error. -/
def parseNumericDate (c : MapClaims) (key : String) : Except ClaimError (Option Int) :=
  match c.get key with
  | Option.none => .ok Option.none
  | some (.number n) => if n = 0 then .ok Option.none else .ok (some n)
  | some _ => .error .ErrInvalidType

/-- The check `Validator.verifyExpiresAt`: the token is good strictly before
the instant `exp`. -/
def verifyExpiresAt (c : MapClaims) (now : Time) : Option ClaimError :=
  match parseNumericDate c "exp" with
  | .error e => some e
  | .ok Option.none => Option.none
  | .ok (some exp) => if (now : Int) < exp * Second then Option.none else some .ErrTokenExpired

/-- The check `Validator.verifyNotBefore`: the token is good from the
instant `nbf` on. -/
def verifyNotBefore (c : MapClaims) (now : Time) : Option ClaimError :=
  match parseNumericDate c "nbf" with
  | .error e => some e
  | .ok Option.none => Option.none
  | .ok (some nbf) => if (now : Int) < nbf * Second then some .ErrTokenNotValidYet else Option.none

/-- The default `Validator.Validate`: expiry and not-before, errors joined. -/
def Validate (c : MapClaims) (now : Time) : List ClaimError :=
  (verifyExpiresAt c now).toList ++ (verifyNotBefore c now).toList

/-- Go `Parser.ParseUnverified`: three segments, decoded, method looked up. -/
def ParseUnverified (lib : JWTLib) (tokenString : String) :
    Except Error (Token × String) :=
  if tokenString.data.count '.' ≠ 2 then .error .ErrTokenMalformed
  else
    match lib.DecodeSegments tokenString with
    | Option.none => .error .ErrTokenMalformed
    | some seg =>
      match seg.alg with
      | Option.none => .error (.ErrTokenUnverifiable "signing method (alg) is unspecified")
      | some alg =>
        match GetSigningMethod alg with
        | Option.none => .error (.ErrTokenUnverifiable "signing method (alg) is unavailable")
        | some m => .ok (⟨m, seg.claims, seg.signature, false⟩, seg.signingString)

/-- Go `jwt.Parse` with the default parser: parse, look the key up, verify
the signature, and only then validate the claims against the clock. -/
def Parse (lib : JWTLib) (now : Time) (tokenString : String)
    (keyFunc : Token → Except Error String) : Except Error Token :=
  match ParseUnverified lib tokenString with
  | .error e => .error e
  | .ok (token, sstr) =>
    match keyFunc token with
    | .error _ => .error (.ErrTokenUnverifiable "error while executing keyfunc")
    | .ok key =>
      if token.Signature ≠ lib.Sign token.Method sstr key then
        .error .ErrTokenSignatureInvalid
      else
        match Validate token.Claims now with
        | [] => .ok { token with Valid := true }
        | errs => .error (.ErrTokenInvalidClaims errs)

/-! ## bcrypt -/

/-- The hash function of `x/crypto/bcrypt`, taken as a parameter. -/
structure BcryptLib where
  /-- Go `bcrypt.GenerateFromPassword` at the default cost, for a given
  random salt. -/
  GenerateFromPassword : String → String → Except Error String
  /-- The comparison of `bcrypt.CompareHashAndPassword` on a hash of full
  length: `none` is the nil error. -/
  compare : String → String → Option Error

/-- The constant `minHashSize` of bcrypt. -/
def minHashSize : Nat := 59

/-- Go `bcrypt.CompareHashAndPassword`: a hash shorter than `minHashSize` is
refused before anything is compared. -/
def CompareHashAndPassword (bc : BcryptLib) (hashedPassword password : String) :
    Option Error :=
  if hashedPassword.length < minHashSize then some .ErrHashTooShort
  else bc.compare hashedPassword password

/-! ## Heap of users -/

/-- The address of a heap allocated `domain.User`. -/
abbrev Ptr := Nat

/-- The heap of `domain.User` objects: the object at every address, and the
next address `new` hands out. -/
structure Heap where
  obj : Ptr → User
  next : Ptr

/-- Allocation `&domain.User{...}`: the new heap and the address. -/
def Heap.alloc (h : Heap) (u : User) : Heap × Ptr :=
  (⟨Function.update h.obj h.next u, h.next + 1⟩, h.next)

/-- Dereference `*p`. -/
def Heap.deref (h : Heap) (p : Ptr) : User :=
  h.obj p

/-- Assignment through a pointer, `*p = u`. -/
def Heap.store (h : Heap) (p : Ptr) (u : User) : Heap :=
  { h with obj := Function.update h.obj p u }

/-- The heap together with the state of a repository. -/
structure World (ρ : Type) where
  heap : Heap
  repo : ρ

/-! ## The repository port -/

/-- The interface `ports.UserRepository`, over a repository state `ρ`. Every
method takes the world and returns its results with the new world; a nil
pointer or nil error is `none`. -/
structure UserRepository (ρ : Type) where
  Create : World ρ → Ptr → Option Error × World ρ
  GetByID : World ρ → ObjectID → (Option Ptr × Option Error) × World ρ
  GetByEmail : World ρ → String → (Option Ptr × Option Error) × World ρ
  GetAll : World ρ → (List Ptr × Option Error) × World ρ
  Update : World ρ → ObjectID → Ptr → Option Error × World ρ
  Delete : World ρ → ObjectID → Option Error × World ρ

/-! ## The in-memory repository of the tests -/

/-- The state of `mockUserRepository`: the map `users` from id to pointer, in
iteration order, and the ids `primitive.NewObjectID` is going to return. -/
structure mockUserRepository where
  users : List (ObjectID × Ptr)
  newObjectID : Nat → ObjectID
  issued : Nat

/-- Go map assignment `m[k] = v`. -/
def mapSet (m : List (ObjectID × Ptr)) (k : ObjectID) (v : Ptr) : List (ObjectID × Ptr) :=
  if m.any (fun e => e.1 == k) then m.map (fun e => if e.1 == k then (k, v) else e)
  else m ++ [(k, v)]

/-- Whether the user at an address has the given email. -/
def emailIs (h : Heap) (email : String) (e : ObjectID × Ptr) : Bool :=
  (h.deref e.2).Email == email

/-- The method `mockUserRepository.Create`: a fresh id is written into the
caller's object and the pointer itself is kept in the map. -/
def mockUserRepository.Create (w : World mockUserRepository) (user : Ptr) :
    Option Error × World mockUserRepository :=
  let id := w.repo.newObjectID w.repo.issued
  let heap := w.heap.store user { w.heap.deref user with ID := id }
  (none, ⟨heap, { w.repo with users := mapSet w.repo.users id user,
                              issued := w.repo.issued + 1 }⟩)

/-- The method `mockUserRepository.GetByID`. -/
def mockUserRepository.GetByID (w : World mockUserRepository) (id : ObjectID) :
    (Option Ptr × Option Error) × World mockUserRepository :=
  ((w.repo.users.lookup id, none), w)

/-- The method `mockUserRepository.GetByEmail`: the first user of the
iteration with that email, the stored pointer itself. -/
def mockUserRepository.GetByEmail (w : World mockUserRepository) (email : String) :
    (Option Ptr × Option Error) × World mockUserRepository :=
  (((w.repo.users.find? (emailIs w.heap email)).map Prod.snd, none), w)

/-- The method `mockUserRepository.GetAll`. -/
def mockUserRepository.GetAll (w : World mockUserRepository) :
    (List Ptr × Option Error) × World mockUserRepository :=
  ((w.repo.users.map Prod.snd, none), w)

/-- The method `mockUserRepository.Update`: name and email are copied into
the stored object. -/
def mockUserRepository.Update (w : World mockUserRepository) (id : ObjectID) (user : Ptr) :
    Option Error × World mockUserRepository :=
  match w.repo.users.lookup id with
  | none => (none, w)
  | some p =>
    let u := w.heap.deref user
    (none, { w with heap := w.heap.store p { w.heap.deref p with Name := u.Name, Email := u.Email } })

/-- The method `mockUserRepository.Delete`. -/
def mockUserRepository.Delete (w : World mockUserRepository) (id : ObjectID) :
    Option Error × World mockUserRepository :=
  (none, { w with repo := { w.repo with users := w.repo.users.filter (fun e => !(e.1 == id)) } })

/-- The mock as an implementation of the port. -/
def mockRepo : UserRepository mockUserRepository where
  Create := mockUserRepository.Create
  GetByID := mockUserRepository.GetByID
  GetByEmail := mockUserRepository.GetByEmail
  GetAll := mockUserRepository.GetAll
  Update := mockUserRepository.Update
  Delete := mockUserRepository.Delete

/-- The constructor `newMockUserRepository`, with the heap it lives in. -/
def newMockUserRepository (heap : Heap) (newObjectID : Nat → ObjectID) :
    World mockUserRepository :=
  ⟨heap, ⟨[], newObjectID, 0⟩⟩

/-! ## The authentication service -/

/-- The record `service.AuthService`, with the libraries it calls and the
value of `config.JWTSecret()`. -/
structure AuthService (ρ : Type) where
  userRepo : UserRepository ρ
  jwt : JWTLib
  bcrypt : BcryptLib
  JWTSecret : String

/-- The constructor `NewAuthService`, with the libraries and the secret the
service is going to use. -/
def NewAuthService {ρ : Type} (userRepo : UserRepository ρ) (jwt : JWTLib) (bcrypt : BcryptLib)
    (secret : String) : AuthService ρ :=
  { userRepo := userRepo, jwt := jwt, bcrypt := bcrypt, JWTSecret := secret }

/-- The record `domain.AuthResponse`. -/
structure AuthResponse where
  Token : String
  User : Ptr
deriving DecidableEq

/-- The duration `time.Hour * 24 * 7`. -/
def tokenLifetime : Nat := Hour * 24 * 7

/-- The claims literal of `generateJWT`, at clock reading `now`. -/
def tokenClaims (now : Time) (userID : ObjectID) (email : String) : MapClaims :=
  [("user_id", .string userID.Hex),
   ("email", .string email),
   ("exp", .number (now.Add tokenLifetime).Unix)]

/-- The method `AuthService.generateJWT`, at clock reading `now`. -/
def AuthService.generateJWT {ρ : Type} (s : AuthService ρ) (now : Time)
    (userID : ObjectID) (email : String) : Except Error String :=
  SignedString s.jwt .HS256 (tokenClaims now userID email) s.JWTSecret

/-- The key function `ValidateToken` hands to `jwt.Parse`. -/
def AuthService.keyFunc {ρ : Type} (s : AuthService ρ) (token : Token) : Except Error String :=
  if !token.Method.isHMAC then .error (.errorsNew "invalid signing method")
  else .ok s.JWTSecret

/-- The method `AuthService.ValidateToken`, at clock reading `now`. The
claims of a token parsed by `jwt.Parse` are always a `jwt.MapClaims`, so the
type assertion on them has no failing branch here. -/
def AuthService.ValidateToken {ρ : Type} (s : AuthService ρ) (now : Time)
    (tokenString : String) : Except Error JWTClaims :=
  match Parse s.jwt now tokenString s.keyFunc with
  | .error err => .error err
  | .ok token =>
    if !token.Valid then .error (.errorsNew "invalid token")
    else
      let claims := token.Claims
      match claims.get "user_id" with
      | some (.string userIDStr) =>
        match ObjectIDFromHex userIDStr with
        | .error _ => .error (.errorsNew "invalid user_id format")
        | .ok userID =>
          match claims.get "email" with
          | some (.string email) =>
            match claims.get "exp" with
            | some (.number exp) => .ok ⟨userID, email, exp⟩
            | _ => .error (.errorsNew "invalid exp in token")
          | _ => .error (.errorsNew "invalid email in token")
      | _ => .error (.errorsNew "invalid user_id in token")

/-- The method `AuthService.Register`. `salt` is the randomness bcrypt
draws, `tCreated` and `tIssued` the two readings of `time.Now()`. -/
def AuthService.Register {ρ : Type} (s : AuthService ρ) (salt : String)
    (tCreated tIssued : Time) (req : RegisterRequest) (w : World ρ) :
    Except Error AuthResponse × World ρ :=
  let ((existingUser, _), w1) := s.userRepo.GetByEmail w req.Email
  match existingUser with
  | some _ => (.error (.errorsNew "user already exists"), w1)
  | none =>
    match s.bcrypt.GenerateFromPassword salt req.Password with
    | .error err => (.error err, w1)
    | .ok hashedPassword =>
      let (heap, user) := w1.heap.alloc
        { ID := NilObjectID, Name := req.Name, Email := req.Email,
          Password := hashedPassword, CreatedAt := tCreated }
      let (err, w2) := s.userRepo.Create { w1 with heap := heap } user
      match err with
      | some err => (.error err, w2)
      | none =>
        let u := w2.heap.deref user
        match s.generateJWT tIssued u.ID u.Email with
        | .error err => (.error err, w2)
        | .ok token =>
          (.ok ⟨token, user⟩, { w2 with heap := w2.heap.store user { u with Password := "" } })

/-- The method `AuthService.Login`, at clock reading `now`. -/
def AuthService.Login {ρ : Type} (s : AuthService ρ) (now : Time)
    (req : AuthRequest) (w : World ρ) : Except Error AuthResponse × World ρ :=
  let ((user, err), w1) := s.userRepo.GetByEmail w req.Email
  match err with
  | some _ => (.error (.errorsNew "invalid credentials"), w1)
  | none =>
    match user with
    | none => (.error (.errorsNew "invalid credentials"), w1)
    | some user =>
      let u := w1.heap.deref user
      match CompareHashAndPassword s.bcrypt u.Password req.Password with
      | some _ => (.error (.errorsNew "invalid credentials"), w1)
      | none =>
        match s.generateJWT now u.ID u.Email with
        | .error err => (.error err, w1)
        | .ok token =>
          (.ok ⟨token, user⟩, { w1 with heap := w1.heap.store user { u with Password := "" } })

/-! ## The gRPC gate -/

/-- A value kept under a context key (`interface{}`). -/
inductive Value where
  | objectID (id : ObjectID)
  | string (s : String)
  | other (n : Nat)
deriving DecidableEq

/-- Go `metadata.MD`: header names to their values. -/
abbrev MD := List (String × List String)

/-- Go `MD.Get` for a lower case key. -/
def MD.Get (md : MD) (k : String) : List String :=
  (md.lookup k).getD []

/-- A `context.Context`: the incoming metadata, when there is any, and the
chain of `context.WithValue` bindings, newest first. -/
structure Context where
  md : Option MD
  values : List (String × Value)
deriving DecidableEq

/-- Go `context.WithValue`. -/
def Context.WithValue (ctx : Context) (key : String) (val : Value) : Context :=
  { ctx with values := (key, val) :: ctx.values }

/-- Go `Context.Value`. -/
def Context.Value (ctx : Context) (key : String) : Option Value :=
  ctx.values.lookup key

/-- Go `metadata.FromIncomingContext`. -/
def FromIncomingContext (ctx : Context) : Option MD :=
  ctx.md

/-- A `grpc.UnaryHandler` acting on a state `σ` of the rest of the server. -/
abbrev UnaryHandler (σ Req Resp : Type) := Context → Req → σ → Except Error Resp × σ

/-- A `grpc.ServerStream`: the stream of the transport, or the wrapper the
interceptor puts around a stream. -/
inductive ServerStream where
  | transport (id : Nat) (ctx : Context)
  | wrappedServerStream (inner : ServerStream) (ctx : Context)
deriving DecidableEq

/-- The method `Context` of a stream; for a `wrappedServerStream` it is the
field `ctx`. -/
def ServerStream.Context : ServerStream → BackendHexagonal.Context
  | .transport _ ctx => ctx
  | .wrappedServerStream _ ctx => ctx

/-- A `grpc.StreamHandler` acting on a state `σ` of the rest of the server. -/
abbrev StreamHandler (σ Srv : Type) := Srv → ServerStream → σ → Option Error × σ

/-- The record `AuthInterceptor`. -/
structure AuthInterceptor (ρ : Type) where
  authService : AuthService ρ
  publicMethods : List (String × Bool)

/-- Go map indexing `publicMethods[name]` on a `map[string]bool`. -/
def AuthInterceptor.isPublic {ρ : Type} (i : AuthInterceptor ρ) (fullMethod : String) : Bool :=
  (i.publicMethods.lookup fullMethod).getD false

/-- The constructor `NewAuthInterceptor`. -/
def NewAuthInterceptor {ρ : Type} (authService : AuthService ρ) : AuthInterceptor ρ :=
  { authService := authService
    publicMethods := [("/user.UserService/CreateUser", true)] }

/-- The method `AuthInterceptor.extractToken`. -/
def AuthInterceptor.extractToken {ρ : Type} (_i : AuthInterceptor ρ) (ctx : Context) :
    Except Error String :=
  match FromIncomingContext ctx with
  | none => .error (.status .Unauthenticated "missing metadata")
  | some md =>
    match md.Get "authorization" with
    | [] => .error (.status .Unauthenticated "missing authorization header")
    | authHeader :: _ =>
      if !HasPrefix authHeader "Bearer " then
        .error (.status .Unauthenticated "invalid authorization header format")
      else
        let token := TrimPrefix authHeader "Bearer "
        if token = "" then .error (.status .Unauthenticated "missing token")
        else .ok token

/-- The method `AuthInterceptor.UnaryInterceptor`, at clock reading `now`. -/
def AuthInterceptor.UnaryInterceptor {ρ σ Req Resp : Type} (i : AuthInterceptor ρ) (now : Time)
    (ctx : Context) (req : Req) (fullMethod : String) (handler : UnaryHandler σ Req Resp)
    (st : σ) : Except Error Resp × σ :=
  if i.isPublic fullMethod then handler ctx req st
  else
    match i.extractToken ctx with
    | .error err => (.error err, st)
    | .ok token =>
      match i.authService.ValidateToken now token with
      | .error _ => (.error (.status .Unauthenticated "invalid token"), st)
      | .ok claims =>
        let ctx := ctx.WithValue "user_id" (.objectID claims.UserID)
        let ctx := ctx.WithValue "email" (.string claims.Email)
        handler ctx req st

/-- The method `AuthInterceptor.StreamInterceptor`, at clock reading `now`. -/
def AuthInterceptor.StreamInterceptor {ρ σ Srv : Type} (i : AuthInterceptor ρ) (now : Time)
    (srv : Srv) (ss : ServerStream) (fullMethod : String) (handler : StreamHandler σ Srv)
    (st : σ) : Option Error × σ :=
  if i.isPublic fullMethod then handler srv ss st
  else
    match i.extractToken ss.Context with
    | .error err => (some err, st)
    | .ok token =>
      match i.authService.ValidateToken now token with
      | .error _ => (some (.status .Unauthenticated "invalid token"), st)
      | .ok claims =>
        let ctx := ss.Context.WithValue "user_id" (.objectID claims.UserID)
        let ctx := ctx.WithValue "email" (.string claims.Email)
        handler srv (.wrappedServerStream ss ctx) st

/-! ## The HTTP gate -/

/-- The part of a `fiber.Ctx` the middleware touches: the request headers
(names in canonical form), the locals, and the response written so far. -/
structure FiberCtx where
  headers : List (String × String)
  locals : List (String × Value)
  status : Nat
  body : List (String × String)
deriving DecidableEq

/-- Go `fiber.Ctx.Get`: the header value, or the empty string. -/
def FiberCtx.Get (c : FiberCtx) (key : String) : String :=
  (c.headers.lookup key).getD ""

/-- Go `fiber.Ctx.Locals` with a value: binds the key. -/
def FiberCtx.SetLocals (c : FiberCtx) (key : String) (val : Value) : FiberCtx :=
  { c with locals := (key, val) :: c.locals.filter (fun e => !(e.1 == key)) }

/-- Go `fiber.Ctx.Locals` without a value: reads the key. -/
def FiberCtx.Locals (c : FiberCtx) (key : String) : Option Value :=
  c.locals.lookup key

/-- Go `c.Status(code).JSON(fiber.Map{"error": msg})`. -/
def FiberCtx.StatusJSON (c : FiberCtx) (code : Nat) (msg : String) : FiberCtx :=
  { c with status := code, body := [("error", msg)] }

/-- The constant `fiber.StatusUnauthorized`. -/
def StatusUnauthorized : Nat := 401

/-- A `fiber.Handler` acting on a state `σ` of the rest of the server. -/
abbrev FiberHandler (σ : Type) := FiberCtx → σ → Option Error × FiberCtx × σ

/-- The handler `JWTMiddleware(authService)` at clock reading `now`; `next`
is the rest of the chain, what `c.Next()` runs. -/
def JWTMiddleware {ρ σ : Type} (authService : AuthService ρ) (now : Time)
    (next : FiberHandler σ) : FiberHandler σ := fun c st =>
  let authHeader := c.Get "Authorization"
  if authHeader = "" then
    (none, c.StatusJSON StatusUnauthorized "Missing authorization header", st)
  else if !HasPrefix authHeader "Bearer " then
    (none, c.StatusJSON StatusUnauthorized "Invalid authorization header format", st)
  else
    let token := TrimPrefix authHeader "Bearer "
    if token = "" then
      (none, c.StatusJSON StatusUnauthorized "Missing token", st)
    else
      match authService.ValidateToken now token with
      | .error _ => (none, c.StatusJSON StatusUnauthorized "Invalid token", st)
      | .ok claims =>
        let c := c.SetLocals "user_id" (.objectID claims.UserID)
        let c := c.SetLocals "email" (.string claims.Email)
        next c st

/-! ## Observing the gates -/

/-- The authorization header a gRPC call carries: the first value of the
`authorization` key of the incoming metadata, if there is one. -/
def grpcAuthorization (ctx : Context) : Option String :=
  match FromIncomingContext ctx with
  | none => none
  | some md => (md.Get "authorization").head?

/-- The authorization header an HTTP request carries, if there is one. -/
def httpAuthorization (c : FiberCtx) : Option String :=
  c.headers.lookup "Authorization"

/-- An authorization input the gate has to refuse: no header, a header that
does not start with `Bearer `, nothing after that, or a token `ValidateToken`
rejects. -/
def BadAuthorization {ρ : Type} (svc : AuthService ρ) (now : Time) : Option String → Prop
  | none => True
  | some a =>
    HasPrefix a "Bearer " = false ∨ TrimPrefix a "Bearer " = "" ∨
      ∃ e, svc.ValidateToken now (TrimPrefix a "Bearer ") = .error e

/-- The decision of a gate as the downstream handler sees it: not reached,
or reached with these values under the keys `user_id` and `email`. -/
inductive Decision where
  | deny
  | allow (userID email : Option Value)
deriving DecidableEq

/-- The decision of `JWTMiddleware`, read off a next handler that records
the `fiber.Ctx` it is called with. -/
def httpDecision {ρ : Type} (svc : AuthService ρ) (now : Time) (c : FiberCtx) : Decision :=
  match (JWTMiddleware svc now (fun c' _ => (none, c', some c')) c none).2.2 with
  | none => .deny
  | some c' => .allow (c'.Locals "user_id") (c'.Locals "email")

/-- The decision of `UnaryInterceptor`, read off a handler that records the
context it is called with. -/
def unaryDecision {ρ : Type} (svc : AuthService ρ) (now : Time) (fullMethod : String)
    (ctx : Context) : Decision :=
  match ((NewAuthInterceptor svc).UnaryInterceptor now ctx () fullMethod
      (fun ctx' _ _ => (Except.ok (), some ctx')) none).2 with
  | none => .deny
  | some ctx' => .allow (ctx'.Value "user_id") (ctx'.Value "email")

/-- The decision of `StreamInterceptor`, read off a handler that records the
context of the stream it is called with. -/
def streamDecision {ρ : Type} (svc : AuthService ρ) (now : Time) (fullMethod : String)
    (ss : ServerStream) : Decision :=
  match ((NewAuthInterceptor svc).StreamInterceptor now () ss fullMethod
      (fun _ ss' _ => (none, some ss'.Context)) none).2 with
  | none => .deny
  | some ctx' => .allow (ctx'.Value "user_id") (ctx'.Value "email")

/-- The gate as the specification describes it, one policy for both
transports: deny unless the header is `Bearer ` followed by a token that
`ValidateToken` accepts, and then allow with the id and email of its claims. -/
def specDecision {ρ : Type} (svc : AuthService ρ) (now : Time) : Option String → Decision
  | none => .deny
  | some a =>
    if HasPrefix a "Bearer " = false then .deny
    else if TrimPrefix a "Bearer " = "" then .deny
    else
      match svc.ValidateToken now (TrimPrefix a "Bearer ") with
      | .error _ => .deny
      | .ok claims => .allow (some (.objectID claims.UserID)) (some (.string claims.Email))

/-- The world a successful `Register` leaves behind on the mock repository:
one new object, kept in the map under a fresh id, its password cleared. -/
def afterRegister (w : World mockUserRepository) (tCreated : Time) (req : RegisterRequest) :
    World mockUserRepository :=
  ⟨⟨Function.update w.heap.obj w.heap.next
      ⟨w.repo.newObjectID w.repo.issued, req.Name, req.Email, "", tCreated⟩, w.heap.next + 1⟩,
    { w.repo with users := mapSet w.repo.users (w.repo.newObjectID w.repo.issued) w.heap.next,
                  issued := w.repo.issued + 1 }⟩

/-! ## The user service -/

/-- The record `service.UserService`. -/
structure UserService (ρ : Type) where
  userRepo : UserRepository ρ

/-- The constructor `NewUserService`. -/
def NewUserService {ρ : Type} (userRepo : UserRepository ρ) : UserService ρ :=
  { userRepo := userRepo }

/-- The zero value of `time.Time`, written as the instant 0. -/
def zeroTime : Time := 0

/-- The method `UserService.CreateUser`, at clock reading `now`: the user
is stored with the password as it was given. -/
def UserService.CreateUser {ρ : Type} (s : UserService ρ) (now : Time)
    (name email password : String) (w : World ρ) : (Option Ptr × Option Error) × World ρ :=
  let (heap, user) := w.heap.alloc
    { ID := NilObjectID, Name := name, Email := email, Password := password, CreatedAt := now }
  let (err, w1) := s.userRepo.Create { w with heap := heap } user
  match err with
  | some err => ((none, some err), w1)
  | none => ((some user, none), w1)

/-- The method `UserService.GetUserByID`. -/
def UserService.GetUserByID {ρ : Type} (s : UserService ρ) (id : ObjectID) (w : World ρ) :
    (Option Ptr × Option Error) × World ρ :=
  s.userRepo.GetByID w id

/-- The method `UserService.GetAllUsers`. -/
def UserService.GetAllUsers {ρ : Type} (s : UserService ρ) (w : World ρ) :
    (List Ptr × Option Error) × World ρ :=
  s.userRepo.GetAll w

/-- The method `UserService.UpdateUser`. -/
def UserService.UpdateUser {ρ : Type} (s : UserService ρ) (id : ObjectID)
    (name email : String) (w : World ρ) : (Option Ptr × Option Error) × World ρ :=
  let (heap, user) := w.heap.alloc
    { ID := NilObjectID, Name := name, Email := email, Password := "", CreatedAt := zeroTime }
  let (err, w1) := s.userRepo.Update { w with heap := heap } id user
  match err with
  | some err => ((none, some err), w1)
  | none => s.userRepo.GetByID w1 id

/-- The method `UserService.DeleteUser`. -/
def UserService.DeleteUser {ρ : Type} (s : UserService ρ) (id : ObjectID) (w : World ρ) :
    Option Error × World ρ :=
  s.userRepo.Delete w id

/-! ## The gRPC user server -/

/-- The name of a status code, `Code.String`. -/
def Code.String : Code → String
  | .Unauthenticated => "Unauthenticated"
  | .InvalidArgument => "InvalidArgument"
  | .NotFound => "NotFound"
  | .Internal => "Internal"

/-- The text of a claim validation failure. -/
def ClaimError.Error : ClaimError → String
  | .ErrTokenExpired => "token is expired"
  | .ErrTokenNotValidYet => "token is not valid yet"
  | .ErrInvalidType => "invalid type for claim"

/-- The method `Error` of an error: its message. Library errors are given
with the text of their sentinel value. -/
def Error.message : Error → String
  | .errorsNew msg => msg
  | .ErrTokenMalformed => "token is malformed"
  | .ErrTokenUnverifiable msg => "token is unverifiable: " ++ msg
  | .ErrTokenSignatureInvalid => "token signature is invalid"
  | .ErrTokenInvalidClaims causes =>
    "token has invalid claims: " ++ ", ".intercalate (causes.map ClaimError.Error)
  | .ErrHashTooShort => "crypto/bcrypt: hashedSecret too short to be a bcrypted password"
  | .ErrMismatchedHashAndPassword =>
    "crypto/bcrypt: hashedPassword is not the hash of the given password"
  | .bcrypt msg => msg
  | .store msg => msg
  | .ErrNoDocuments => "mongo: no documents in result"
  | .ErrInvalidHex => "the provided hex string is not a valid ObjectID"
  | .status code msg => "rpc error: code = " ++ code.String ++ " desc = " ++ msg

/-- The message type `User` of the gRPC adapter. -/
structure GrpcUser where
  ID : String
  Name : String
  Email : String
  CreatedAt : Time
deriving DecidableEq

/-- The message type `CreateUserRequest`. -/
structure CreateUserRequest where
  Name : String
  Email : String
  Password : String
deriving DecidableEq

/-- The message type `CreateUserResponse`. -/
structure CreateUserResponse where
  User : GrpcUser
  Message : String
deriving DecidableEq

/-- The record `UserServer`. -/
structure UserServer (ρ : Type) where
  userService : UserService ρ
  authService : AuthService ρ

/-- The constructor `NewUserServer`. -/
def NewUserServer {ρ : Type} (userService : UserService ρ) (authService : AuthService ρ) :
    UserServer ρ :=
  { userService := userService, authService := authService }

/-- The method `UserServer.CreateUser`. `salt`, `tCreated` and `tIssued` are
the randomness and the clock readings `Register` uses. -/
def UserServer.CreateUser {ρ : Type} (s : UserServer ρ) (salt : String)
    (tCreated tIssued : Time) (req : CreateUserRequest) (w : World ρ) :
    Except Error CreateUserResponse × World ρ :=
  if req.Name = "" ∨ req.Email = "" ∨ req.Password = "" then
    (.error (.status .InvalidArgument "name, email, and password are required"), w)
  else
    let registerReq : RegisterRequest :=
      { Name := req.Name, Email := req.Email, Password := req.Password }
    match s.authService.Register salt tCreated tIssued registerReq w with
    | (.error err, w1) => (.error (.status .Internal err.message), w1)
    | (.ok authResponse, w1) =>
      let u := w1.heap.deref authResponse.User
      let grpcUser : GrpcUser :=
        { ID := u.ID.Hex, Name := u.Name, Email := u.Email, CreatedAt := u.CreatedAt }
      (.ok { User := grpcUser, Message := "User created successfully" }, w1)

/-! ## Recording what a repository is asked -/

/-- One call to a repository, with the record behind a pointer argument as
it is at the time of the call. -/
inductive StoreCall where
  | Create (user : User)
  | GetByID (id : ObjectID)
  | GetByEmail (email : String)
  | GetAll
  | Update (id : ObjectID) (user : User)
  | Delete (id : ObjectID)
deriving DecidableEq

/-- The state of a repository together with the calls made to it so far. -/
structure Recorded (ρ : Type) where
  inner : ρ
  calls : List StoreCall

/-- The world without the record of the calls. -/
def World.inner {ρ : Type} (w : World (Recorded ρ)) : World ρ :=
  ⟨w.heap, w.repo.inner⟩

/-- The world an inner repository returned, with the calls so far and one more. -/
def World.record {ρ : Type} (w : World (Recorded ρ)) (call : StoreCall) (w1 : World ρ) :
    World (Recorded ρ) :=
  ⟨w1.heap, ⟨w1.repo, w.repo.calls ++ [call]⟩⟩

/-- A repository that behaves as `r` does and records every call. -/
def recording {ρ : Type} (r : UserRepository ρ) : UserRepository (Recorded ρ) where
  Create w user :=
    let res := r.Create w.inner user
    (res.1, w.record (.Create (w.heap.deref user)) res.2)
  GetByID w id :=
    let res := r.GetByID w.inner id
    (res.1, w.record (.GetByID id) res.2)
  GetByEmail w email :=
    let res := r.GetByEmail w.inner email
    (res.1, w.record (.GetByEmail email) res.2)
  GetAll w :=
    let res := r.GetAll w.inner
    (res.1, w.record .GetAll res.2)
  Update w id user :=
    let res := r.Update w.inner id user
    (res.1, w.record (.Update id (w.heap.deref user)) res.2)
  Delete w id :=
    let res := r.Delete w.inner id
    (res.1, w.record (.Delete id) res.2)

/-- The contract of the password hasher: a hash it generated verifies
against the password it was generated from, and is not that password. -/
def BcryptLib.Sound (bc : BcryptLib) : Prop :=
  ∀ salt password hashed, bc.GenerateFromPassword salt password = .ok hashed →
    CompareHashAndPassword bc hashed password = none ∧ hashed ≠ password

/-! ## The Mongo adapter -/

/-- A `mongo.Collection` as the adapter uses it: the documents, a failure
of the driver or the server if there is one (then every operation fails with
it), and the ids the driver is going to generate. -/
structure Collection where
  docs : List User
  failure : Option String
  newObjectID : Nat → ObjectID
  issued : Nat

/-- The method `Create` of the Mongo `UserRepository`: `InsertOne` stores a
copy of the record, under a generated id when the record has the zero id,
and the id is written back into the caller's object. -/
def mongoUserRepository.Create (w : World Collection) (user : Ptr) :
    Option Error × World Collection :=
  match w.repo.failure with
  | some msg => (some (.store msg), w)
  | none =>
    let u := w.heap.deref user
    let generate := decide (u.ID = NilObjectID)
    let id := if generate then w.repo.newObjectID w.repo.issued else u.ID
    if w.repo.docs.any (fun d => d.ID == id) then
      (some (.store "E11000 duplicate key error"), w)
    else
      (none, ⟨w.heap.store user { u with ID := id },
        { w.repo with docs := w.repo.docs ++ [{ u with ID := id }],
                      issued := if generate then w.repo.issued + 1 else w.repo.issued }⟩)

/-- The result of `FindOne(filter).Decode(&user)` followed by `return &user`:
a fresh copy of the first matching document, or the error. -/
def findOne (w : World Collection) (filter : User → Bool) :
    (Option Ptr × Option Error) × World Collection :=
  match w.repo.failure with
  | some msg => ((none, some (.store msg)), w)
  | none =>
    match w.repo.docs.find? filter with
    | none => ((none, some .ErrNoDocuments), w)
    | some d =>
      let (heap, p) := w.heap.alloc d
      ((some p, none), { w with heap := heap })

/-- The method `GetByID` of the Mongo `UserRepository`. -/
def mongoUserRepository.GetByID (w : World Collection) (id : ObjectID) :
    (Option Ptr × Option Error) × World Collection :=
  findOne w (fun d => d.ID == id)

/-- The method `GetByEmail` of the Mongo `UserRepository`. -/
def mongoUserRepository.GetByEmail (w : World Collection) (email : String) :
    (Option Ptr × Option Error) × World Collection :=
  findOne w (fun d => d.Email == email)

/-- The loop of `GetAll`: every document is decoded into an object of its own. -/
def decodeAll : Heap → List User → Heap × List Ptr
  | heap, [] => (heap, [])
  | heap, d :: ds =>
    let (heap1, p) := heap.alloc d
    let (heap2, ps) := decodeAll heap1 ds
    (heap2, p :: ps)

/-- The method `GetAll` of the Mongo `UserRepository`. -/
def mongoUserRepository.GetAll (w : World Collection) :
    (List Ptr × Option Error) × World Collection :=
  match w.repo.failure with
  | some msg => (([], some (.store msg)), w)
  | none =>
    let (heap, ps) := decodeAll w.heap w.repo.docs
    ((ps, none), { w with heap := heap })

/-- The method `Update` of the Mongo `UserRepository`: `$set` of name and
email on the document with the id. -/
def mongoUserRepository.Update (w : World Collection) (id : ObjectID) (user : Ptr) :
    Option Error × World Collection :=
  match w.repo.failure with
  | some msg => (some (.store msg), w)
  | none =>
    let u := w.heap.deref user
    (none, { w with repo := { w.repo with docs := w.repo.docs.map (fun d =>
      if d.ID == id then { d with Name := u.Name, Email := u.Email } else d) } })

/-- The method `Delete` of the Mongo `UserRepository`. -/
def mongoUserRepository.Delete (w : World Collection) (id : ObjectID) :
    Option Error × World Collection :=
  match w.repo.failure with
  | some msg => (some (.store msg), w)
  | none =>
    (none, { w with repo := { w.repo with docs := w.repo.docs.filter (fun d => !(d.ID == id)) } })

/-- The Mongo adapter as an implementation of the port. -/
def mongoRepo : UserRepository Collection where
  Create := mongoUserRepository.Create
  GetByID := mongoUserRepository.GetByID
  GetByEmail := mongoUserRepository.GetByEmail
  GetAll := mongoUserRepository.GetAll
  Update := mongoUserRepository.Update
  Delete := mongoUserRepository.Delete

/-! ## More about the gates and the mock -/

/-- The bearer token of an authorization input, as both gates extract it:
what follows `Bearer `, when the header starts so and something follows. -/
def bearerToken : Option String → Option String
  | none => none
  | some a =>
    if HasPrefix a "Bearer " = false then none
    else if TrimPrefix a "Bearer " = "" then none
    else some (TrimPrefix a "Bearer ")

/-- The claims of a token that `ValidateToken` cannot turn into
`domain.JWTClaims`: `user_id` is missing, not a string or not the hexadecimal
form of an object id (twenty-four hexadecimal digits), `email` is missing or
not a string, or `exp` is missing or not a number. -/
def BadClaims (c : MapClaims) : Prop :=
  (∀ hex, c.get "user_id" ≠ some (.string hex)) ∨
  (∃ hex, c.get "user_id" = some (.string hex) ∧
    ¬ (hex.length = 24 ∧ ∀ ch ∈ hex.data, (fromHexChar ch).isSome = true)) ∨
  (∀ email, c.get "email" ≠ some (.string email)) ∨
  (∀ exp, c.get "exp" ≠ some (.number exp))

/-- The worlds of the mock repository a Go program can be in: every stored
pointer is an allocated address, and two ids have two objects. -/
def WellFormed (w : World mockUserRepository) : Prop :=
  (∀ e ∈ w.repo.users, e.2 < w.heap.next) ∧
  (∀ e₁ ∈ w.repo.users, ∀ e₂ ∈ w.repo.users, e₁.1 ≠ e₂.1 → e₁.2 ≠ e₂.2)

/-! ## Reading one user -/

/-- What a Go call comes to: it returns, or it panics. -/
inductive Outcome (α : Type) where
  | returned (a : α)
  | panic (msg : String)

/-- The panic of the Go runtime for a dereference of a nil pointer. -/
def nilDereference : String :=
  "runtime error: invalid memory address or nil pointer dereference"

/-- The message type `GetUserRequest`. -/
structure GetUserRequest where
  ID : String
deriving DecidableEq

/-- The message type `GetUserResponse`. -/
structure GetUserResponse where
  User : GrpcUser
deriving DecidableEq

/-- The method `UserServer.GetUser`. Only the error of `GetUserByID` is
tested; the fields of the user are then read through the pointer, which
panics when the pointer is nil. -/
def UserServer.GetUser {ρ : Type} (s : UserServer ρ) (req : GetUserRequest) (w : World ρ) :
    Outcome (Except Error GetUserResponse) × World ρ :=
  if req.ID = "" then
    (.returned (.error (.status .InvalidArgument "user ID is required")), w)
  else
    match ObjectIDFromHex req.ID with
    | .error _ => (.returned (.error (.status .InvalidArgument "invalid user ID format")), w)
    | .ok objectID =>
      match s.userService.GetUserByID objectID w with
      | ((_, some _), w1) => (.returned (.error (.status .NotFound "user not found")), w1)
      | ((none, none), w1) => (.panic nilDereference, w1)
      | ((some domainUser, none), w1) =>
        let u := w1.heap.deref domainUser
        let grpcUser : GrpcUser :=
          { ID := u.ID.Hex, Name := u.Name, Email := u.Email, CreatedAt := u.CreatedAt }
        (.returned (.ok { User := grpcUser }), w1)

/-- The body of an HTTP response of the user handler: `fiber.Map` with one
`error` entry, or the JSON of a `domain.User`. -/
inductive ResponseBody where
  | error (msg : String)
  | user (u : User)
deriving DecidableEq

/-- The response a handler writes: `c.Status(code)` and `c.JSON(body)`. -/
structure HTTPResponse where
  status : Nat
  body : ResponseBody
deriving DecidableEq

/-- The constant `fiber.StatusOK`. -/
def StatusOK : Nat := 200

/-- The constant `fiber.StatusBadRequest`. -/
def StatusBadRequest : Nat := 400

/-- The constant `fiber.StatusNotFound`. -/
def StatusNotFound : Nat := 404

/-- The record `UserHandler`. -/
structure UserHandler (ρ : Type) where
  userService : UserService ρ

/-- The constructor `NewUserHandler`. -/
def NewUserHandler {ρ : Type} (userService : UserService ρ) : UserHandler ρ :=
  { userService := userService }

/-- The method `UserHandler.Get`; `idParam` is `c.Params("id")`. Only the
error of `GetUserByID` is tested; `user.Password = ""` then writes through
the pointer, which panics when the pointer is nil. -/
def UserHandler.Get {ρ : Type} (h : UserHandler ρ) (idParam : String) (w : World ρ) :
    Outcome HTTPResponse × World ρ :=
  match ObjectIDFromHex idParam with
  | .error _ => (.returned ⟨StatusBadRequest, .error "Invalid user ID"⟩, w)
  | .ok id =>
    match h.userService.GetUserByID id w with
    | ((_, some _), w1) => (.returned ⟨StatusNotFound, .error "User not found"⟩, w1)
    | ((none, none), w1) => (.panic nilDereference, w1)
    | ((some user, none), w1) =>
      let u := w1.heap.deref user
      let heap := w1.heap.store user
        ⟨u.ID, u.Name, u.Email, "", u.CreatedAt⟩
      (.returned ⟨StatusOK, .user (heap.deref user)⟩, { w1 with heap := heap })

/-! ## HMAC

The MAC behind the methods HS256, HS384 and HS512: `SigningMethodHMAC.Sign`
of golang-jwt calls `crypto/hmac` of the standard library over SHA-256,
SHA-384 or SHA-512. Bytes are written as characters. -/

/-- The block size of the hash behind an HMAC method, in bytes: 64 for
SHA-256, 128 for SHA-384 and SHA-512. -/
def blockSize : SigningMethod → Nat
  | .HS384 | .HS512 => 128
  | _ => 64

/-- One byte of a key block xor a pad byte. -/
def xorByte (pad : Nat) (c : Char) : Char :=
  Char.ofNat (c.toNat ^^^ pad)

/-- The key block of HMAC (RFC 2104), as `crypto/hmac.New` builds it: a key
longer than the block is replaced by its hash, and the key is filled up with
zero bytes to the size of the block. -/
def hmacKeyBlock (H : String → String) (size : Nat) (key : String) : List Char :=
  let k := if size < key.length then (H key).data else key.data
  k ++ List.replicate (size - k.length) (Char.ofNat 0)

/-- The tag of HMAC over a hash function `H` with the given block size:
`H(block xor opad, H(block xor ipad, msg))`. -/
def HMAC (H : String → String) (size : Nat) (key msg : String) : String :=
  H ⟨(hmacKeyBlock H size key).map (xorByte 0x5c) ++
    (H ⟨(hmacKeyBlock H size key).map (xorByte 0x36) ++ msg.data⟩).data⟩

/-! ## A small instance of the parameters

The theorems below hold for every `JWTLib` and `BcryptLib`. To show that
their hypotheses can be met, and to run the code on concrete inputs, here is
a small instance: a codec that knows one payload and a hash that keeps the
password behind a fixed header. -/

/-- An object id: twelve times the same byte. -/
def demoID (b : Fin 256) : ObjectID := ⟨List.replicate 12 b, by simp⟩

/-- An instant with half a second past the full second. -/
def demoT0 : Time := 1700000000500000000

/-- The claims `generateJWT` writes for `demoID 171`, `ann@x.com` at `demoT0`. -/
def demoClaims : MapClaims :=
  tokenClaims demoT0 (demoID 171) "ann@x.com"

/-- A codec whose payload segment always stands for `demoClaims`, and a MAC
that shows its key. -/
def demoJWT : JWTLib where
  SigningString m _ := m.Alg ++ ".payload"
  Sign m _ key := "mac:" ++ m.Alg ++ ":" ++ key
  DecodeSegments s :=
    if HasPrefix s "HS256.payload." then
      some ⟨"HS256.payload", some "HS256", demoClaims, TrimPrefix s "HS256.payload."⟩
    else none

/-- The header the demo hash puts before the password: sixty characters. -/
def demoHashHeader : String :=
  "$2a$10$0000000000000000000000000000000000000000000000000000:"

/-- A hash that keeps the password behind `demoHashHeader`. -/
def demoBcrypt : BcryptLib where
  GenerateFromPassword _ password := .ok (demoHashHeader ++ password)
  compare h password :=
    if h = demoHashHeader ++ password then none else some .ErrMismatchedHashAndPassword

/-- The service over the mock repository with the demo libraries. -/
def demoService (secret : String) : AuthService mockUserRepository :=
  NewAuthService mockRepo demoJWT demoBcrypt secret

/-- An empty heap. -/
def emptyHeap : Heap := ⟨fun _ => ⟨NilObjectID, "", "", "", 0⟩, 0⟩

/-- A repository of the tests that holds Ann with the demo hash of the
password `secret1`. -/
def demoWorldAnn : World mockUserRepository :=
  ⟨⟨fun _ => ⟨demoID 171, "Ann", "ann@x.com", demoHashHeader ++ "secret1", demoT0⟩, 1⟩,
    ⟨[(demoID 171, 0)], fun n => demoID (Fin.ofNat (172 + n)), 0⟩⟩

/-- A gRPC context whose metadata carry the given authorization header. -/
def demoContext (authorization : String) : Context :=
  ⟨some [("authorization", [authorization])], []⟩

/-- An HTTP request that carries the given authorization header. -/
def demoRequest (authorization : String) : FiberCtx :=
  ⟨[("Authorization", authorization)], [], 200, []⟩

/-- The empty mock repository whose next id is `demoID 171`. -/
def demoWorld : World mockUserRepository :=
  newMockUserRepository emptyHeap (fun n => demoID (Fin.ofNat (171 + n)))

/-- A codec whose payload segment always stands for the given claims, with
the MAC of `demoJWT`. -/
def stubJWT (claims : MapClaims) : JWTLib where
  SigningString m _ := m.Alg ++ ".payload"
  Sign m _ key := "mac:" ++ m.Alg ++ ":" ++ key
  DecodeSegments s :=
    if HasPrefix s "HS256.payload." then
      some ⟨"HS256.payload", some "HS256", claims, TrimPrefix s "HS256.payload."⟩
    else none

/-- Claims without a `user_id`. -/
def demoClaimsNoUser : MapClaims :=
  [("email", .string "ann@x.com"), ("exp", .number 1700604800)]

/-- The repository of `demoWorldAnn` with a second user, Bob. -/
def demoWorldTwo : World mockUserRepository :=
  ⟨⟨fun p => if p = 0 then ⟨demoID 171, "Ann", "ann@x.com", demoHashHeader ++ "secret1", demoT0⟩
      else ⟨demoID 172, "Bob", "bob@x.com", demoHashHeader ++ "secret2", demoT0⟩, 2⟩,
    ⟨[(demoID 171, 0), (demoID 172, 1)], fun n => demoID (Fin.ofNat (173 + n)), 0⟩⟩

/-- A collection that holds Ann with the demo hash of `secret1`. -/
def demoCollection (failure : Option String) : World Collection :=
  ⟨emptyHeap,
    ⟨[⟨demoID 171, "Ann", "ann@x.com", demoHashHeader ++ "secret1", demoT0⟩], failure,
      fun n => demoID (Fin.ofNat (172 + n)), 0⟩⟩

/-- The service over the Mongo adapter with the demo libraries. -/
def demoMongoService : AuthService Collection :=
  NewAuthService mongoRepo demoJWT demoBcrypt "k"

/-- The empty repository of the tests, with no call recorded yet. -/
def demoRecorded : World (Recorded mockUserRepository) :=
  ⟨emptyHeap, ⟨demoWorld.repo, []⟩⟩

/-- A codec whose header segment is the given `alg` and whose payload
segment always stands for the given claims. -/
def algJWT (alg : String) (claims : MapClaims) : JWTLib where
  SigningString m _ := m.Alg ++ ".payload"
  Sign m _ key := "mac:" ++ m.Alg ++ ":" ++ key
  DecodeSegments s :=
    if HasPrefix s (alg ++ ".payload.") then
      some ⟨alg ++ ".payload", some alg, claims, TrimPrefix s (alg ++ ".payload.")⟩
    else none

/-- A stand-in for a hash function: thirty-two times one letter, chosen by
the sum of the bytes. -/
def demoHash (s : String) : String :=
  ⟨List.replicate 32 (if s.data.foldl (fun a c => a + c.toNat) 0 % 2 = 0 then 'a' else 'b')⟩

/-- A codec whose payload segment always stands for the given claims, with
HMAC over the hash `H` as its MAC. -/
def hmacJWT (H : String → String) (claims : MapClaims) : JWTLib where
  SigningString m _ := m.Alg ++ ".payload"
  Sign m sstr key := HMAC H (blockSize m) key sstr
  DecodeSegments s :=
    if HasPrefix s "HS256.payload." then
      some ⟨"HS256.payload", some "HS256", claims, TrimPrefix s "HS256.payload."⟩
    else none

/-- A secret of seventy-eight bytes, longer than the block of SHA-256. -/
def demoLongKey : String :=
  "a-signing-secret-that-is-longer-than-the-sixty-four-bytes-of-one-sha-256-block"

/-- The service over the mock repository whose tokens carry an HMAC over
`demoHash`. -/
def hmacService (secret : String) : AuthService mockUserRepository :=
  NewAuthService mockRepo (hmacJWT demoHash demoClaims) demoBcrypt secret

/-! ## Object id round trip -/

theorem fromHexChar_hexDigit (n : Nat) (h : n < 16) : fromHexChar (hexDigit n) = some n := by
  interval_cases n <;> rfl

theorem flatMap_hexByte_cons (b : Fin 256) (bs : List (Fin 256)) :
    (b :: bs).flatMap hexByte =
      hexDigit (b.val / 16) :: hexDigit (b.val % 16) :: bs.flatMap hexByte := rfl

theorem hexDecode_flatMap (bs : List (Fin 256)) : hexDecode (bs.flatMap hexByte) = some bs := by
  induction bs with
  | nil => rfl
  | cons b bs ih =>
    have h1 : b.val / 16 < 16 := by omega
    have h2 : b.val % 16 < 16 := by omega
    have h3 : Fin.ofNat (b.val / 16 * 16 + b.val % 16) = b := by
      apply Fin.ext
      simp [Fin.ofNat]
      omega
    rw [flatMap_hexByte_cons, hexDecode, fromHexChar_hexDigit _ h1, fromHexChar_hexDigit _ h2, ih]
    simp only [h3]

theorem length_flatMap_hexByte (bs : List (Fin 256)) :
    (bs.flatMap hexByte).length = 2 * bs.length := by
  induction bs with
  | nil => rfl
  | cons b bs ih =>
    rw [flatMap_hexByte_cons, List.length_cons, List.length_cons, ih, List.length_cons]
    omega

theorem ObjectIDFromHex_Hex (id : ObjectID) : ObjectIDFromHex id.Hex = .ok id := by
  have hl : id.Hex.length = 24 := by
    show (id.bytes.flatMap hexByte).length = 24
    rw [length_flatMap_hexByte, id.size]
  have hd : hexDecode id.Hex.data = some id.bytes := hexDecode_flatMap id.bytes
  simp only [ObjectIDFromHex, hl, hd, id.size, if_true, dite_true]

theorem GetSigningMethod_Alg (m : SigningMethod) : GetSigningMethod m.Alg = some m := by
  cases m <;> rfl

theorem ParseUnverified_compact (lib : JWTLib) (m : SigningMethod) (claims : MapClaims)
    (key : String) (hrt : lib.ReadsBack m claims key) :
    ParseUnverified lib (lib.compact m claims key) =
      .ok (⟨m, claims, lib.Sign m (lib.SigningString m claims) key, false⟩,
        lib.SigningString m claims) := by
  obtain ⟨hdots, hdec⟩ := hrt
  simp only [ParseUnverified, hdots, hdec, GetSigningMethod_Alg, ne_eq, not_true_eq_false,
    if_false]

theorem Unix_Add_tokenLifetime (t0 : Time) :
    (t0.Add tokenLifetime).Unix = t0.Unix + 604800 := by
  have hpos : 0 < Second := by unfold Second; omega
  have hl : tokenLifetime = Second * 604800 := by unfold tokenLifetime Hour; ring
  unfold Time.Add Time.Unix
  rw [hl, Nat.add_mul_div_left _ _ hpos]
  push_cast
  ring

theorem lookup_exp_tokenClaims (t0 : Time) (id : ObjectID) (email : String) :
    MapClaims.get (tokenClaims t0 id email) "exp" = some (.number (t0.Unix + 604800)) := by
  rw [← Unix_Add_tokenLifetime]
  rfl

theorem lookup_nbf_tokenClaims (t0 : Time) (id : ObjectID) (email : String) :
    MapClaims.get (tokenClaims t0 id email) "nbf" = Option.none := rfl

theorem lookup_user_id_tokenClaims (t0 : Time) (id : ObjectID) (email : String) :
    MapClaims.get (tokenClaims t0 id email) "user_id" = some (.string id.Hex) := rfl

theorem lookup_email_tokenClaims (t0 : Time) (id : ObjectID) (email : String) :
    MapClaims.get (tokenClaims t0 id email) "email" = some (.string email) := rfl

theorem Validate_tokenClaims (t0 t : Time) (id : ObjectID) (email : String) :
    Validate (tokenClaims t0 id email) t =
      if (t : Int) < (t0.Unix + 604800) * Second then [] else [ClaimError.ErrTokenExpired] := by
  have hne : ¬ (t0.Unix + 604800 = 0) := by
    have : (0 : Int) ≤ t0.Unix := Int.ofNat_nonneg _
    omega
  have hexp : parseNumericDate (tokenClaims t0 id email) "exp" = .ok (some (t0.Unix + 604800)) := by
    rw [parseNumericDate, lookup_exp_tokenClaims]
    simp only [hne, if_false]
  have hnbf : parseNumericDate (tokenClaims t0 id email) "nbf" = .ok Option.none := by
    rw [parseNumericDate, lookup_nbf_tokenClaims]
  rw [Validate, verifyExpiresAt, verifyNotBefore, hexp, hnbf]
  by_cases h : (t : Int) < (t0.Unix + 604800) * Second
  · simp only [h, if_true]; rfl
  · simp only [h, if_false]; rfl

theorem Parse_compact {ρ : Type} (s : AuthService ρ) (m : SigningMethod) (claims : MapClaims)
    (key : String) (t : Time) (hm : m.isHMAC = true) (hrt : s.jwt.ReadsBack m claims key) :
    Parse s.jwt t (s.jwt.compact m claims key) s.keyFunc =
      if s.jwt.Sign m (s.jwt.SigningString m claims) key ≠
          s.jwt.Sign m (s.jwt.SigningString m claims) s.JWTSecret then
        .error .ErrTokenSignatureInvalid
      else
        match Validate claims t with
        | [] => .ok ⟨m, claims, s.jwt.Sign m (s.jwt.SigningString m claims) key, true⟩
        | errs => .error (.ErrTokenInvalidClaims errs) := by
  rw [Parse, ParseUnverified_compact s.jwt m claims key hrt]
  simp only [AuthService.keyFunc, hm, Bool.not_true, Bool.false_eq_true, if_false]

theorem ValidateToken_of_Parse_error {ρ : Type} (s : AuthService ρ) (t : Time) (tok : String)
    (e : Error) (h : Parse s.jwt t tok s.keyFunc = .error e) :
    s.ValidateToken t tok = .error e := by
  rw [AuthService.ValidateToken, h]

theorem ValidateToken_of_Parse_ok {ρ : Type} (s : AuthService ρ) (t : Time) (tok : String)
    (token : Token) (hex : String) (id : ObjectID) (email : String) (exp : Int)
    (h : Parse s.jwt t tok s.keyFunc = .ok token) (hv : token.Valid = true)
    (h1 : token.Claims.get "user_id" = some (.string hex))
    (h2 : ObjectIDFromHex hex = .ok id)
    (h3 : token.Claims.get "email" = some (.string email))
    (h4 : token.Claims.get "exp" = some (.number exp)) :
    s.ValidateToken t tok = .ok ⟨id, email, exp⟩ := by
  rw [AuthService.ValidateToken, h]
  simp only [hv, Bool.not_true, Bool.false_eq_true, if_false, h1, h2, h3, h4]

theorem ValidateToken_compact_tokenClaims {ρ : Type} (s : AuthService ρ) (t0 t : Time)
    (id : ObjectID) (email : String)
    (hrt : s.jwt.ReadsBack .HS256 (tokenClaims t0 id email) s.JWTSecret) :
    s.ValidateToken t (s.jwt.compact .HS256 (tokenClaims t0 id email) s.JWTSecret) =
      if (t : Int) < (t0.Unix + 604800) * Second then .ok ⟨id, email, t0.Unix + 604800⟩
      else .error (.ErrTokenInvalidClaims [.ErrTokenExpired]) := by
  have hp := Parse_compact s .HS256 (tokenClaims t0 id email) s.JWTSecret t rfl hrt
  rw [if_neg (fun h => h rfl), Validate_tokenClaims] at hp
  by_cases h : (t : Int) < (t0.Unix + 604800) * Second
  · rw [if_pos h] at hp
    rw [if_pos h]
    exact ValidateToken_of_Parse_ok s t _ _ _ id email _ hp rfl
      (lookup_user_id_tokenClaims t0 id email) (ObjectIDFromHex_Hex id)
      (lookup_email_tokenClaims t0 id email) (lookup_exp_tokenClaims t0 id email)
  · rw [if_neg h] at hp
    rw [if_neg h]
    exact ValidateToken_of_Parse_error s t _ _ hp

theorem exp_instant (t0 : Time) :
    (t0.Unix + 604800) * (Second : Int) = ((t0 / Second * Second + tokenLifetime : Nat) : Int) := by
  unfold Time.Unix tokenLifetime Hour
  push_cast
  ring

theorem not_lt_of_add_le (t0 t L S : Nat) (h : t0 + L ≤ t) : ¬ t < t0 / S * S + L := by
  have := Nat.div_mul_le_self t0 S
  omega

theorem demo_ReadsBack (key : String) (h : key.data.count '.' = 0) :
    demoJWT.ReadsBack .HS256 demoClaims key := by
  constructor
  · show ("HS256.payload.mac:HS256:".data ++ key.data).count '.' = 2
    rw [List.count_append, h]
    rfl
  · rfl

/-- C4 (as stated, refuted): the token issued at 1700000000.5 s is already
refused at 1700604800.2 s, which is earlier than seven days after the issue;
`exp` holds whole seconds, so the token ends with the second 1700604800. -/
theorem generateJWT_refused_within_seven_days :
    (1700604800200000000 : Time) < demoT0.Add tokenLifetime ∧
    demoJWT.ReadsBack .HS256 (tokenClaims demoT0 (demoID 171) "ann@x.com") "k" ∧
    (demoService "k").generateJWT demoT0 (demoID 171) "ann@x.com" =
      .ok "HS256.payload.mac:HS256:k" ∧
    (demoService "k").ValidateToken 1700604800200000000 "HS256.payload.mac:HS256:k" =
      .error (.ErrTokenInvalidClaims [.ErrTokenExpired]) := by
  refine ⟨by norm_num [demoT0, Time.Add, tokenLifetime, Hour, Second],
    demo_ReadsBack "k" rfl, rfl, ?_⟩
  have h := ValidateToken_compact_tokenClaims (demoService "k") demoT0 1700604800200000000
    (demoID 171) "ann@x.com" (demo_ReadsBack "k" rfl)
  rw [exp_instant, if_neg] at h
  · exact h
  · rw [Nat.cast_lt]
    norm_num [demoT0, tokenLifetime, Hour, Second]

/-- C4 (amended): a token issued by `generateJWT` at `t0` is accepted by
`ValidateToken` under the same secret at every time before the expiry
instant, which is seven days after `t0` cut down to the full second; the
claims returned carry the id, the email and `Exp = unix(t0) + 604800`. -/
theorem generateJWT_ValidateToken_roundtrip {ρ : Type} (s : AuthService ρ) (t0 t : Time)
    (id : ObjectID) (email : String)
    (hrt : s.jwt.ReadsBack .HS256 (tokenClaims t0 id email) s.JWTSecret)
    (ht : t < t0 / Second * Second + tokenLifetime) :
    ∃ tok, s.generateJWT t0 id email = .ok tok ∧
      s.ValidateToken t tok = .ok ⟨id, email, t0.Unix + 604800⟩ := by
  refine ⟨_, rfl, ?_⟩
  rw [ValidateToken_compact_tokenClaims s t0 t id email hrt, exp_instant, if_pos]
  exact Nat.cast_lt.mpr ht

theorem generateJWT_ValidateToken_roundtrip_witness :
    ∃ tok, (demoService "k").generateJWT demoT0 (demoID 171) "ann@x.com" = .ok tok ∧
      (demoService "k").ValidateToken 1700604799999999999 tok =
        .ok ⟨demoID 171, "ann@x.com", demoT0.Unix + 604800⟩ :=
  generateJWT_ValidateToken_roundtrip (demoService "k") demoT0 1700604799999999999
    (demoID 171) "ann@x.com" (demo_ReadsBack "k" rfl)
    (by norm_num [demoT0, tokenLifetime, Hour, Second])

/-- C5: a token issued by `generateJWT` at `t0` is refused with the
token-expired error, and no claims, at every time from seven days after `t0`
on, and already from the expiry instant `exp` on, the instant itself
included. -/
theorem generateJWT_expired {ρ : Type} (s : AuthService ρ) (t0 t : Time)
    (id : ObjectID) (email : String)
    (hrt : s.jwt.ReadsBack .HS256 (tokenClaims t0 id email) s.JWTSecret)
    (ht : t0.Add tokenLifetime ≤ t ∨ (t0.Add tokenLifetime).Unix * Second ≤ (t : Int)) :
    ∃ tok, s.generateJWT t0 id email = .ok tok ∧
      s.ValidateToken t tok = .error (.ErrTokenInvalidClaims [.ErrTokenExpired]) := by
  refine ⟨_, rfl, ?_⟩
  rw [ValidateToken_compact_tokenClaims s t0 t id email hrt, if_neg]
  rcases ht with ht | ht
  · rw [exp_instant, Nat.cast_lt]
    exact not_lt_of_add_le t0 t tokenLifetime Second ht
  · rw [Unix_Add_tokenLifetime] at ht
    exact not_lt.mpr ht

theorem generateJWT_expired_witness :
    ∃ tok, (demoService "k").generateJWT demoT0 (demoID 171) "ann@x.com" = .ok tok ∧
      (demoService "k").ValidateToken 1700604800500000000 tok =
        .error (.ErrTokenInvalidClaims [.ErrTokenExpired]) :=
  generateJWT_expired (demoService "k") demoT0 1700604800500000000
    (demoID 171) "ann@x.com" (demo_ReadsBack "k" rfl)
    (Or.inl (by norm_num [demoT0, Time.Add, tokenLifetime, Hour, Second]))

theorem Parse_bad_signature {ρ : Type} (s : AuthService ρ) (now : Time) (tokenString : String)
    (token : Token) (sstr : String)
    (hp : ParseUnverified s.jwt tokenString = .ok (token, sstr))
    (hm : token.Method.isHMAC = true)
    (hsig : token.Signature ≠ s.jwt.Sign token.Method sstr s.JWTSecret) :
    Parse s.jwt now tokenString s.keyFunc = .error .ErrTokenSignatureInvalid := by
  rw [Parse, hp]
  simp only [AuthService.keyFunc, hm, Bool.not_true, Bool.false_eq_true, if_false]
  rw [if_pos hsig]

theorem hmacKeyBlock_long_key (H : String → String) (size : Nat) (key : String)
    (hlong : size < key.length) (hshort : (H key).length ≤ size) :
    hmacKeyBlock H size (H key) = hmacKeyBlock H size key := by
  have h1 : ¬ size < (H key).length := Nat.not_lt.mpr hshort
  simp only [hmacKeyBlock, h1, hlong, if_true, if_false]

theorem HMAC_long_key (H : String → String) (size : Nat) (key msg : String)
    (hlong : size < key.length) (hshort : (H key).length ≤ size) :
    HMAC H size (H key) msg = HMAC H size key msg := by
  simp only [HMAC, hmacKeyBlock_long_key H size key hlong hshort]

theorem HMAC_zero_byte (H : String → String) (size : Nat) (key msg : String)
    (hshort : key.length < size) :
    HMAC H size ⟨key.data ++ [Char.ofNat 0]⟩ msg = HMAC H size key msg := by
  have hl : key.data.length < size := hshort
  have h1 : ¬ size < (String.mk (key.data ++ [Char.ofNat 0])).length := by
    show ¬ size < (key.data ++ [Char.ofNat 0]).length
    rw [List.length_append, List.length_singleton]
    omega
  have h2 : ¬ size < key.length := Nat.not_lt.mpr (Nat.le_of_lt hshort)
  have hb : hmacKeyBlock H size ⟨key.data ++ [Char.ofNat 0]⟩ = hmacKeyBlock H size key := by
    simp only [hmacKeyBlock, h1, h2, if_false, List.length_append, List.length_singleton,
      List.append_assoc]
    congr 1
    have : size - key.data.length = (size - (key.data.length + 1)) + 1 := by omega
    rw [this, List.replicate_succ]
    rfl
  simp only [HMAC, hb]

theorem demoHash_length (s : String) : (demoHash s).length = 32 := by
  show (List.replicate 32 _).length = 32
  exact List.length_replicate _ _

theorem demoHash_count_dot (s : String) : (demoHash s).data.count '.' = 0 := by
  unfold demoHash
  split <;> rfl

theorem demoLongKey_length : demoLongKey.length = 78 := by decide

theorem hmacJWT_DecodeSegments (H : String → String) (claims : MapClaims) (sig : String) :
    (hmacJWT H claims).DecodeSegments ("HS256.payload" ++ "." ++ sig) =
      some ⟨"HS256.payload", some "HS256", claims, sig⟩ := by
  cases sig with
  | mk d => cases d <;> rfl

theorem hmacJWT_Sign_long_key (H : String → String) (claims : MapClaims) (m : SigningMethod)
    (sstr key : String) (hlong : blockSize m < key.length)
    (hshort : (H key).length ≤ blockSize m) :
    (hmacJWT H claims).Sign m sstr (H key) = (hmacJWT H claims).Sign m sstr key :=
  HMAC_long_key H (blockSize m) key sstr hlong hshort

theorem compact_of_Sign_eq (lib : JWTLib) (m : SigningMethod) (claims : MapClaims)
    (s1 s2 : String)
    (h : lib.Sign m (lib.SigningString m claims) s1 = lib.Sign m (lib.SigningString m claims) s2) :
    lib.compact m claims s1 = lib.compact m claims s2 := by
  simp only [JWTLib.compact, h]

theorem hmacJWT_ReadsBack (H : String → String) (claims : MapClaims) (key : String)
    (h : ∀ s, (H s).data.count '.' = 0) :
    (hmacJWT H claims).ReadsBack .HS256 claims key := by
  constructor
  · show ("HS256.payload.".data ++ (HMAC H 64 key "HS256.payload").data).count '.' = 2
    rw [List.count_append, HMAC, h]
    rfl
  · exact hmacJWT_DecodeSegments H claims (HMAC H 64 key "HS256.payload")

theorem SignedString_of_Sign_eq (lib : JWTLib) (m : SigningMethod) (claims : MapClaims)
    (s1 s2 : String)
    (h : lib.Sign m (lib.SigningString m claims) s1 = lib.Sign m (lib.SigningString m claims) s2) :
    SignedString lib m claims s1 = SignedString lib m claims s2 := by
  simp only [SignedString, JWTLib.compact, h]

theorem ValidateToken_not_signature {ρ : Type} (s : AuthService ρ) (now : Time)
    (tok : String)
    (h : Parse s.jwt now tok s.keyFunc ≠ .error .ErrTokenSignatureInvalid) :
    s.ValidateToken now tok ≠ .error .ErrTokenSignatureInvalid := by
  unfold AuthService.ValidateToken
  intro hv
  split at hv
  · rename_i err he
    rw [he] at h
    cases hv
    exact h rfl
  · split at hv
    · cases hv
    · dsimp only at hv
      split at hv
      · split at hv
        · cases hv
        · split at hv
          · split at hv
            · cases hv
            · cases hv
          · cases hv
      · cases hv

theorem Parse_compact_same_tag {ρ : Type} (s : AuthService ρ) (m : SigningMethod)
    (claims : MapClaims) (key : String) (t : Time) (hm : m.isHMAC = true)
    (hrt : s.jwt.ReadsBack m claims key)
    (h : s.jwt.Sign m (s.jwt.SigningString m claims) key =
      s.jwt.Sign m (s.jwt.SigningString m claims) s.JWTSecret) :
    Parse s.jwt t (s.jwt.compact m claims key) s.keyFunc ≠ .error .ErrTokenSignatureInvalid := by
  rw [Parse_compact s m claims key t hm hrt, if_neg (fun hne => hne h)]
  intro hv
  split at hv
  · cases hv
  · cases hv

/-- C6 (as stated, refuted): the secret `demoLongKey` of seventy-eight bytes
and its hash are different secrets, and the token signed with the first is
accepted by `ValidateToken` running with the second: over every hash
function HMAC replaces a key longer than the block of the hash by its hash,
so both secrets give the same tag. -/
theorem equivalent_secret_accepted :
    demoLongKey ≠ demoHash demoLongKey ∧
    (∀ (H : String → String) (size : Nat) (key msg : String),
      size < key.length → (H key).length ≤ size →
      HMAC H size (H key) msg = HMAC H size key msg) ∧
    ∃ tok, SignedString (hmacJWT demoHash demoClaims) .HS256 demoClaims demoLongKey = .ok tok ∧
      (hmacService (demoHash demoLongKey)).ValidateToken demoT0 tok =
        .ok ⟨demoID 171, "ann@x.com", 1700604800⟩ := by
  refine ⟨fun hne => ?_, HMAC_long_key, _, rfl, ?_⟩
  · have hl := congrArg String.length hne
    rw [demoLongKey_length, demoHash_length] at hl
    omega
  have hs := hmacJWT_Sign_long_key demoHash demoClaims .HS256
    ((hmacJWT demoHash demoClaims).SigningString .HS256 demoClaims) demoLongKey
    (by rw [demoLongKey_length]; decide) (by rw [demoHash_length]; decide)
  rw [← compact_of_Sign_eq (hmacJWT demoHash demoClaims) .HS256 demoClaims _ _ hs]
  have h := ValidateToken_compact_tokenClaims (hmacService (demoHash demoLongKey)) demoT0 demoT0
    (demoID 171) "ann@x.com" (hmacJWT_ReadsBack demoHash demoClaims _ demoHash_count_dot)
  rw [exp_instant, if_pos (Nat.cast_lt.mpr (by
    norm_num [demoT0, tokenLifetime, Hour, Second]))] at h
  exact h

/-- C6 (amended): a token signed with a secret `s1` whose HMAC tag on the
signing string differs from the tag of the service's secret is refused by
`ValidateToken` with the signature-invalid error, whatever its claims are and
whatever the time is; for every token string whose signature does not verify
the result is that error, so no error about a claim field (user_id, email,
exp, expiry) is returned for it; and when the two tags are equal the token is
the one the service's own secret signs and the result is not the
signature-invalid error. -/
theorem ValidateToken_other_tag {ρ : Type} (s : AuthService ρ) (now : Time) :
    (∀ (m : SigningMethod) (claims : MapClaims) (s1 : String),
      m.isHMAC = true → s.jwt.ReadsBack m claims s1 →
      s.jwt.Sign m (s.jwt.SigningString m claims) s1 ≠
        s.jwt.Sign m (s.jwt.SigningString m claims) s.JWTSecret →
      ∃ tok, SignedString s.jwt m claims s1 = .ok tok ∧
        s.ValidateToken now tok = .error .ErrTokenSignatureInvalid) ∧
    (∀ (tokenString : String) (token : Token) (sstr : String),
      ParseUnverified s.jwt tokenString = .ok (token, sstr) →
      token.Method.isHMAC = true →
      token.Signature ≠ s.jwt.Sign token.Method sstr s.JWTSecret →
      s.ValidateToken now tokenString = .error .ErrTokenSignatureInvalid) ∧
    (∀ (m : SigningMethod) (claims : MapClaims) (s1 : String),
      m.isHMAC = true → s.jwt.ReadsBack m claims s1 →
      s.jwt.Sign m (s.jwt.SigningString m claims) s1 =
        s.jwt.Sign m (s.jwt.SigningString m claims) s.JWTSecret →
      ∃ tok, SignedString s.jwt m claims s1 = .ok tok ∧
        SignedString s.jwt m claims s.JWTSecret = .ok tok ∧
        s.ValidateToken now tok ≠ .error .ErrTokenSignatureInvalid) := by
  refine ⟨?_, ?_, ?_⟩
  · intro m claims s1 hm hrt hne
    refine ⟨_, rfl, ?_⟩
    apply ValidateToken_of_Parse_error
    rw [Parse_compact s m claims s1 now hm hrt, if_pos hne]
  · intro tokenString token sstr hp hm hsig
    exact ValidateToken_of_Parse_error s now tokenString _
      (Parse_bad_signature s now tokenString token sstr hp hm hsig)
  · intro m claims s1 hm hrt heq
    refine ⟨_, rfl, (SignedString_of_Sign_eq s.jwt m claims s1 s.JWTSecret heq).symm, ?_⟩
    exact ValidateToken_not_signature s now _ (Parse_compact_same_tag s m claims s1 now hm hrt heq)

/-- C6 (amended) at concrete inputs: the demo token signed with `k1` is
refused by the service whose secret is `k2`, as a signed token and as a token
string; and the token signed with `demoLongKey` is the token its hash signs,
which the service whose secret is that hash does not refuse for its
signature. -/
theorem ValidateToken_other_tag_witness :
    (∃ tok, SignedString demoJWT .HS256 demoClaims "k1" = .ok tok ∧
      (demoService "k2").ValidateToken 0 tok = .error .ErrTokenSignatureInvalid) ∧
    (demoService "k2").ValidateToken 0 "HS256.payload.mac:HS256:k1" =
      .error .ErrTokenSignatureInvalid ∧
    (∃ tok, SignedString (hmacJWT demoHash demoClaims) .HS256 demoClaims demoLongKey = .ok tok ∧
      SignedString (hmacJWT demoHash demoClaims) .HS256 demoClaims (demoHash demoLongKey) =
        .ok tok ∧
      (hmacService (demoHash demoLongKey)).ValidateToken 0 tok ≠
        .error .ErrTokenSignatureInvalid) :=
  ⟨(ValidateToken_other_tag (demoService "k2") 0).1 .HS256 demoClaims "k1" rfl
      (demo_ReadsBack "k1" rfl) (by decide),
    (ValidateToken_other_tag (demoService "k2") 0).2.1 "HS256.payload.mac:HS256:k1"
      ⟨.HS256, demoClaims, "mac:HS256:k1", false⟩ "HS256.payload" rfl rfl (by decide),
    (ValidateToken_other_tag (hmacService (demoHash demoLongKey)) 0).2.2 .HS256 demoClaims
      demoLongKey rfl (hmacJWT_ReadsBack demoHash demoClaims _ demoHash_count_dot)
      (hmacJWT_Sign_long_key demoHash demoClaims .HS256
        ((hmacJWT demoHash demoClaims).SigningString .HS256 demoClaims) demoLongKey
        (by rw [demoLongKey_length]; decide) (by rw [demoHash_length]; decide)).symm⟩

/-! ## The mock repository -/

theorem mem_mapSet_self (m : List (ObjectID × Ptr)) (k : ObjectID) (v : Ptr) :
    (k, v) ∈ mapSet m k v := by
  unfold mapSet
  split
  · rename_i h
    obtain ⟨e, he, hk⟩ := List.any_eq_true.mp h
    exact List.mem_map.mpr ⟨e, he, by rw [if_pos hk]⟩
  · exact List.mem_append_right _ (List.mem_singleton.mpr rfl)

theorem snd_of_mem_mapSet (m : List (ObjectID × Ptr)) (k : ObjectID) (v : Ptr)
    (e : ObjectID × Ptr) (he : e ∈ mapSet m k v) : e ∈ m ∨ e = (k, v) := by
  unfold mapSet at he
  split at he
  · obtain ⟨a, ha, rfl⟩ := List.mem_map.mp he
    by_cases hk : (a.1 == k) = true
    · right; rw [if_pos hk]
    · left; rw [if_neg hk]; exact ha
  · rcases List.mem_append.mp he with h | h
    · exact Or.inl h
    · exact Or.inr (List.mem_singleton.mp h)

theorem Register_mock_ok (jwt : JWTLib) (bc : BcryptLib) (secret salt : String)
    (tCreated tIssued : Time) (req : RegisterRequest) (w w' : World mockUserRepository)
    (resp : AuthResponse)
    (h : (NewAuthService mockRepo jwt bc secret).Register salt tCreated tIssued req w =
      (.ok resp, w')) :
    w.repo.users.find? (emailIs w.heap req.Email) = none ∧ resp.User = w.heap.next ∧
      w' = afterRegister w tCreated req := by
  simp only [AuthService.Register, NewAuthService, mockRepo, mockUserRepository.GetByEmail,
    mockUserRepository.Create, AuthService.generateJWT, SignedString] at h
  cases hf : List.find? (emailIs w.heap req.Email) w.repo.users with
  | some e => simp [hf] at h
  | none =>
    simp only [hf, Option.map_none'] at h
    cases hg : bc.GenerateFromPassword salt req.Password with
    | error e => simp [hg] at h
    | ok hp =>
      simp only [hg, Heap.alloc, Heap.store, Heap.deref, Function.update_same,
        Function.update_idem, Prod.mk.injEq, Except.ok.injEq] at h
      obtain ⟨h1, h2⟩ := h
      refine ⟨rfl, ?_, ?_⟩
      · rw [← h1]
      · rw [← h2]; rfl

theorem GetByEmail_afterRegister (w : World mockUserRepository) (tCreated : Time)
    (req : RegisterRequest)
    (hnone : w.repo.users.find? (emailIs w.heap req.Email) = none) :
    mockUserRepository.GetByEmail (afterRegister w tCreated req) req.Email =
      ((some w.heap.next, none), afterRegister w tCreated req) := by
  have hnew : emailIs (afterRegister w tCreated req).heap req.Email
      (w.repo.newObjectID w.repo.issued, w.heap.next) = true := by
    simp [emailIs, afterRegister, Heap.deref]
  have hmem : (w.repo.newObjectID w.repo.issued, w.heap.next) ∈
      (afterRegister w tCreated req).repo.users := mem_mapSet_self _ _ _
  cases hf : (afterRegister w tCreated req).repo.users.find?
      (emailIs (afterRegister w tCreated req).heap req.Email) with
  | none =>
    have := List.find?_eq_none.mp hf _ hmem
    exact absurd hnew this
  | some e =>
    have he : e ∈ (afterRegister w tCreated req).repo.users := List.mem_of_find?_eq_some hf
    have hp : emailIs (afterRegister w tCreated req).heap req.Email e = true :=
      List.find?_some hf
    have hsnd : e.2 = w.heap.next := by
      rcases snd_of_mem_mapSet _ _ _ e he with hold | hnewe
      · by_contra hne
        have hsame : emailIs w.heap req.Email e = true := by
          simpa [emailIs, afterRegister, Heap.deref, Function.update_noteq hne] using hp
        exact List.find?_eq_none.mp hnone e hold hsame
      · rw [hnewe]
    simp only [mockUserRepository.GetByEmail, hf, Option.map_some', hsnd]

/-- C1: when `GetByEmail(req.Email)` returns a user, `Register` returns the
error `user already exists` and no response, and the world it leaves is the
one `GetByEmail` left, whatever `Create` would do: `Create` is not called. On
the repository of the tests the world is the one before the call, and after
one successful `Register` every further `Register` with that email fails
with that error. -/
theorem Register_existing_user :
    (∀ (ρ : Type) (s : AuthService ρ) (create : World ρ → Ptr → Option Error × World ρ)
      (salt : String) (tCreated tIssued : Time) (req : RegisterRequest) (w : World ρ) (p : Ptr),
      (s.userRepo.GetByEmail w req.Email).1.1 = some p →
      ({ s with userRepo := { s.userRepo with Create := create } } : AuthService ρ).Register
          salt tCreated tIssued req w =
        (.error (.errorsNew "user already exists"), (s.userRepo.GetByEmail w req.Email).2)) ∧
    (∀ (jwt : JWTLib) (bc : BcryptLib) (secret salt : String) (tCreated tIssued : Time)
      (req : RegisterRequest) (w : World mockUserRepository) (p : Ptr),
      (mockRepo.GetByEmail w req.Email).1.1 = some p →
      (NewAuthService mockRepo jwt bc secret).Register salt tCreated tIssued req w =
        (.error (.errorsNew "user already exists"), w)) ∧
    (∀ (jwt : JWTLib) (bc : BcryptLib) (secret salt : String) (tCreated tIssued : Time)
      (req : RegisterRequest) (w w' : World mockUserRepository) (resp : AuthResponse),
      (NewAuthService mockRepo jwt bc secret).Register salt tCreated tIssued req w =
        (.ok resp, w') →
      ∀ (salt2 : String) (t1 t2 : Time) (req2 : RegisterRequest), req2.Email = req.Email →
        (NewAuthService mockRepo jwt bc secret).Register salt2 t1 t2 req2 w' =
          (.error (.errorsNew "user already exists"), w')) := by
  have hgen : ∀ (ρ : Type) (s : AuthService ρ) (salt : String) (tCreated tIssued : Time)
      (req : RegisterRequest) (w : World ρ) (p : Ptr),
      (s.userRepo.GetByEmail w req.Email).1.1 = some p →
      s.Register salt tCreated tIssued req w =
        (.error (.errorsNew "user already exists"), (s.userRepo.GetByEmail w req.Email).2) := by
    intro ρ s salt tCreated tIssued req w p h
    simp only [AuthService.Register, h]
  refine ⟨?_, ?_, ?_⟩
  · intro ρ s create salt tCreated tIssued req w p h
    exact hgen ρ _ salt tCreated tIssued req w p h
  · intro jwt bc secret salt tCreated tIssued req w p h
    exact hgen _ (NewAuthService mockRepo jwt bc secret) salt tCreated tIssued req w p h
  · intro jwt bc secret salt tCreated tIssued req w w' resp h salt2 t1 t2 req2 hreq
    obtain ⟨hnone, -, hw⟩ := Register_mock_ok jwt bc secret salt tCreated tIssued req w w' resp h
    have hget := GetByEmail_afterRegister w tCreated req hnone
    have := hgen _ (NewAuthService mockRepo jwt bc secret) salt2 t1 t2 req2 w' w.heap.next
      (by rw [hreq, hw]; show (mockUserRepository.GetByEmail _ _).1.1 = _; rw [hget])
    rw [this]
    rfl

theorem Register_mock_new (jwt : JWTLib) (bc : BcryptLib) (secret salt hashed : String)
    (tCreated tIssued : Time) (req : RegisterRequest) (w : World mockUserRepository)
    (hnone : w.repo.users.find? (emailIs w.heap req.Email) = none)
    (hhash : bc.GenerateFromPassword salt req.Password = .ok hashed) :
    (NewAuthService mockRepo jwt bc secret).Register salt tCreated tIssued req w =
      (.ok ⟨jwt.compact .HS256
          (tokenClaims tIssued (w.repo.newObjectID w.repo.issued) req.Email) secret,
        w.heap.next⟩, afterRegister w tCreated req) := by
  simp only [AuthService.Register, NewAuthService, mockRepo, mockUserRepository.GetByEmail,
    mockUserRepository.Create, AuthService.generateJWT, SignedString, hnone, Option.map_none',
    hhash, Heap.alloc, Heap.store, Heap.deref, Function.update_same, Function.update_idem]
  rfl

theorem CompareHashAndPassword_empty (bc : BcryptLib) (password : String) :
    CompareHashAndPassword bc "" password = some .ErrHashTooShort := rfl

/-- C1 at a concrete input: Ann registers on the empty repository of the
tests, then Bob tries the same email. -/
theorem Register_existing_user_witness :
    (demoService "k").Register "salt" demoT0 demoT0 ⟨"Ann", "ann@x.com", "secret1"⟩ demoWorld =
      (.ok ⟨"HS256.payload.mac:HS256:k", 0⟩,
        afterRegister demoWorld demoT0 ⟨"Ann", "ann@x.com", "secret1"⟩) ∧
    (demoService "k").Register "salt2" 1 2 ⟨"Bob", "ann@x.com", "secret2"⟩
        (afterRegister demoWorld demoT0 ⟨"Ann", "ann@x.com", "secret1"⟩) =
      (.error (.errorsNew "user already exists"),
        afterRegister demoWorld demoT0 ⟨"Ann", "ann@x.com", "secret1"⟩) :=
  ⟨Register_mock_new demoJWT demoBcrypt "k" "salt" _ demoT0 demoT0
      ⟨"Ann", "ann@x.com", "secret1"⟩ demoWorld rfl rfl,
   Register_existing_user.2.2 demoJWT demoBcrypt "k" "salt" demoT0 demoT0
    ⟨"Ann", "ann@x.com", "secret1"⟩ demoWorld _ _
    (Register_mock_new demoJWT demoBcrypt "k" "salt" _ demoT0 demoT0
      ⟨"Ann", "ann@x.com", "secret1"⟩ demoWorld rfl rfl)
    "salt2" 1 2 ⟨"Bob", "ann@x.com", "secret2"⟩ rfl⟩

/-- C2 (the code on the repository of the tests): after a successful
`Register`, `Login` with the same email fails with `invalid credentials`
for every password, the registered one included. `Create` keeps the
caller's pointer, and `Register` then clears the password through it, so
the stored hash is empty. -/
theorem Login_after_Register_mock (jwt : JWTLib) (bc : BcryptLib) (secret salt : String)
    (tCreated tIssued now : Time) (req : RegisterRequest) (w w' : World mockUserRepository)
    (resp : AuthResponse) (password : String)
    (h : (NewAuthService mockRepo jwt bc secret).Register salt tCreated tIssued req w =
      (.ok resp, w')) :
    (w'.heap.deref resp.User).Password = "" ∧
    (NewAuthService mockRepo jwt bc secret).Login now ⟨req.Email, password⟩ w' =
      (.error (.errorsNew "invalid credentials"), w') := by
  obtain ⟨hnone, hresp, hw⟩ := Register_mock_ok jwt bc secret salt tCreated tIssued req w w' resp h
  have hget := GetByEmail_afterRegister w tCreated req hnone
  have hpw : ((afterRegister w tCreated req).heap.deref w.heap.next).Password = "" := by
    simp [afterRegister, Heap.deref]
  subst hw
  refine ⟨by rw [hresp]; exact hpw, ?_⟩
  simp only [AuthService.Login, NewAuthService, mockRepo, hget, hpw,
    CompareHashAndPassword_empty]

/-- C2 at the input of `TestAuthService_Login`: Jane registers on the empty
repository, which succeeds, and then logs in with the password she
registered, which fails. -/
theorem Login_after_Register_mock_witness :
    (demoService "k").Register "salt" demoT0 demoT0
        ⟨"Jane Doe", "jane@example.com", "password123"⟩ demoWorld =
      (.ok ⟨"HS256.payload.mac:HS256:k", 0⟩,
        afterRegister demoWorld demoT0 ⟨"Jane Doe", "jane@example.com", "password123"⟩) ∧
    (demoService "k").Login demoT0 ⟨"jane@example.com", "password123"⟩
        (afterRegister demoWorld demoT0 ⟨"Jane Doe", "jane@example.com", "password123"⟩) =
      (.error (.errorsNew "invalid credentials"),
        afterRegister demoWorld demoT0 ⟨"Jane Doe", "jane@example.com", "password123"⟩) :=
  ⟨Register_mock_new demoJWT demoBcrypt "k" "salt" _ demoT0 demoT0
      ⟨"Jane Doe", "jane@example.com", "password123"⟩ demoWorld rfl rfl,
   (Login_after_Register_mock demoJWT demoBcrypt "k" "salt" demoT0 demoT0 demoT0
    ⟨"Jane Doe", "jane@example.com", "password123"⟩ demoWorld _ _ "password123"
    (Register_mock_new demoJWT demoBcrypt "k" "salt" _ demoT0 demoT0
      ⟨"Jane Doe", "jane@example.com", "password123"⟩ demoWorld rfl rfl)).2⟩

/-- C3: `Login` with an email for which the repository returns no user, and
`Login` with an email whose user's stored hash does not verify against the
password, both return the error `invalid credentials` and no response. -/
theorem Login_invalid_credentials {ρ : Type} (s : AuthService ρ) (now : Time)
    (req : AuthRequest) (w : World ρ) :
    ((s.userRepo.GetByEmail w req.Email).1.1 = none →
      s.Login now req w =
        (.error (.errorsNew "invalid credentials"), (s.userRepo.GetByEmail w req.Email).2)) ∧
    (∀ p : Ptr, (s.userRepo.GetByEmail w req.Email).1.1 = some p →
      CompareHashAndPassword s.bcrypt
        ((s.userRepo.GetByEmail w req.Email).2.heap.deref p).Password req.Password ≠ none →
      s.Login now req w =
        (.error (.errorsNew "invalid credentials"), (s.userRepo.GetByEmail w req.Email).2)) := by
  constructor
  · intro h
    simp only [AuthService.Login, h]
    split <;> rfl
  · intro p h hc
    simp only [AuthService.Login, h]
    split
    · rfl
    · split
      · rfl
      · rename_i hnone
        exact absurd hnone hc

/-- C3 at concrete inputs: on the repository that holds Ann, an unknown
email and a wrong password for Ann give the same result. -/
theorem Login_invalid_credentials_witness :
    (demoService "k").Login demoT0 ⟨"nobody@x.com", "secret1"⟩ demoWorldAnn =
      (.error (.errorsNew "invalid credentials"), demoWorldAnn) ∧
    (demoService "k").Login demoT0 ⟨"ann@x.com", "wrong"⟩ demoWorldAnn =
      (.error (.errorsNew "invalid credentials"), demoWorldAnn) :=
  ⟨(Login_invalid_credentials (demoService "k") demoT0 ⟨"nobody@x.com", "secret1"⟩
      demoWorldAnn).1 rfl,
   (Login_invalid_credentials (demoService "k") demoT0 ⟨"ann@x.com", "wrong"⟩
      demoWorldAnn).2 0 rfl (by decide)⟩

/-! ## The gates -/

theorem isPublic_NewAuthInterceptor {ρ : Type} (svc : AuthService ρ) (m : String)
    (hm : m ≠ "/user.UserService/CreateUser") : (NewAuthInterceptor svc).isPublic m = false := by
  have hb : (m == "/user.UserService/CreateUser") = false := beq_eq_false_iff_ne.mpr hm
  simp only [AuthInterceptor.isPublic, NewAuthInterceptor, List.lookup, hb]
  rfl

theorem isPublic_CreateUser {ρ : Type} (svc : AuthService ρ) :
    (NewAuthInterceptor svc).isPublic "/user.UserService/CreateUser" = true := rfl

theorem extractToken_none {ρ : Type} (i : AuthInterceptor ρ) (ctx : Context)
    (h : grpcAuthorization ctx = none) :
    ∃ msg, i.extractToken ctx = .error (.status .Unauthenticated msg) := by
  obtain ⟨md, vals⟩ := ctx
  cases md with
  | none => exact ⟨_, rfl⟩
  | some md =>
    cases hget : md.Get "authorization" with
    | nil =>
      refine ⟨"missing authorization header", ?_⟩
      simp only [AuthInterceptor.extractToken, FromIncomingContext, hget]
    | cons a rest =>
      simp [grpcAuthorization, FromIncomingContext, hget] at h

theorem extractToken_some {ρ : Type} (i : AuthInterceptor ρ) (ctx : Context) (a : String)
    (h : grpcAuthorization ctx = some a) :
    i.extractToken ctx =
      if HasPrefix a "Bearer " = false then
        .error (.status .Unauthenticated "invalid authorization header format")
      else if TrimPrefix a "Bearer " = "" then .error (.status .Unauthenticated "missing token")
      else .ok (TrimPrefix a "Bearer ") := by
  obtain ⟨md, vals⟩ := ctx
  cases md with
  | none => simp [grpcAuthorization, FromIncomingContext] at h
  | some md =>
    cases hget : md.Get "authorization" with
    | nil => simp [grpcAuthorization, FromIncomingContext, hget] at h
    | cons b rest =>
      simp only [grpcAuthorization, FromIncomingContext, hget, List.head?_cons,
        Option.some.injEq] at h
      subst h
      simp only [AuthInterceptor.extractToken, FromIncomingContext, hget]
      cases HasPrefix b "Bearer " <;> rfl

theorem extractToken_bad {ρ : Type} (i : AuthInterceptor ρ) (now : Time) (ctx : Context)
    (hbad : BadAuthorization i.authService now (grpcAuthorization ctx)) :
    (∃ msg, i.extractToken ctx = .error (.status .Unauthenticated msg)) ∨
    (∃ tok e, i.extractToken ctx = .ok tok ∧ i.authService.ValidateToken now tok = .error e) := by
  cases hh : grpcAuthorization ctx with
  | none => exact Or.inl (extractToken_none i ctx hh)
  | some a =>
    rw [hh] at hbad
    rw [extractToken_some i ctx a hh]
    by_cases hp : HasPrefix a "Bearer " = false
    · rw [if_pos hp]; exact Or.inl ⟨_, rfl⟩
    · rw [if_neg hp]
      by_cases ht : TrimPrefix a "Bearer " = ""
      · rw [if_pos ht]; exact Or.inl ⟨_, rfl⟩
      · rw [if_neg ht]
        rcases hbad with h | h | ⟨e, he⟩
        · exact absurd h hp
        · exact absurd h ht
        · exact Or.inr ⟨_, e, rfl, he⟩

theorem JWTMiddleware_none {ρ σ : Type} (svc : AuthService ρ) (now : Time)
    (next : FiberHandler σ) (c : FiberCtx) (st : σ) (h : httpAuthorization c = none) :
    JWTMiddleware svc now next c st =
      (none, c.StatusJSON StatusUnauthorized "Missing authorization header", st) := by
  have hget : c.Get "Authorization" = "" := by
    unfold httpAuthorization at h
    simp only [FiberCtx.Get, h, Option.getD_none]
  simp only [JWTMiddleware, hget, if_true]

theorem JWTMiddleware_some {ρ σ : Type} (svc : AuthService ρ) (now : Time)
    (next : FiberHandler σ) (c : FiberCtx) (st : σ) (a : String)
    (h : httpAuthorization c = some a) :
    JWTMiddleware svc now next c st =
      if a = "" then (none, c.StatusJSON StatusUnauthorized "Missing authorization header", st)
      else if HasPrefix a "Bearer " = false then
        (none, c.StatusJSON StatusUnauthorized "Invalid authorization header format", st)
      else if TrimPrefix a "Bearer " = "" then
        (none, c.StatusJSON StatusUnauthorized "Missing token", st)
      else
        match svc.ValidateToken now (TrimPrefix a "Bearer ") with
        | .error _ => (none, c.StatusJSON StatusUnauthorized "Invalid token", st)
        | .ok claims =>
          next ((c.SetLocals "user_id" (.objectID claims.UserID)).SetLocals "email"
            (.string claims.Email)) st := by
  have hget : c.Get "Authorization" = a := by
    unfold httpAuthorization at h
    simp only [FiberCtx.Get, h, Option.getD_some]
  simp only [JWTMiddleware, hget]
  cases HasPrefix a "Bearer " <;> rfl

/-- C7: on every gRPC method other than `/user.UserService/CreateUser`, and
on every route behind `JWTMiddleware`, a request whose authorization header
is absent, does not start with `Bearer `, has nothing after that, or carries
a token `ValidateToken` rejects is refused, with `codes.Unauthenticated` on
gRPC and status 401 on HTTP. The result and the state of the server are the
same for every downstream handler: the handler is not invoked. -/
theorem gate_refuses_bad_authorization {ρ : Type} (svc : AuthService ρ) (now : Time) :
    (∀ (σ Req Resp : Type) (ctx : Context) (req : Req) (m : String),
      m ≠ "/user.UserService/CreateUser" → BadAuthorization svc now (grpcAuthorization ctx) →
      ∃ msg, ∀ (handler : UnaryHandler σ Req Resp) (st : σ),
        (NewAuthInterceptor svc).UnaryInterceptor now ctx req m handler st =
          (.error (.status .Unauthenticated msg), st)) ∧
    (∀ (σ Srv : Type) (srv : Srv) (ss : ServerStream) (m : String),
      m ≠ "/user.UserService/CreateUser" →
      BadAuthorization svc now (grpcAuthorization ss.Context) →
      ∃ msg, ∀ (handler : StreamHandler σ Srv) (st : σ),
        (NewAuthInterceptor svc).StreamInterceptor now srv ss m handler st =
          (some (.status .Unauthenticated msg), st)) ∧
    (∀ (σ : Type) (c : FiberCtx), BadAuthorization svc now (httpAuthorization c) →
      ∃ msg, ∀ (next : FiberHandler σ) (st : σ),
        JWTMiddleware svc now next c st = (none, c.StatusJSON 401 msg, st)) := by
  refine ⟨?_, ?_, ?_⟩
  · intro σ Req Resp ctx req m hm hbad
    have hpub := isPublic_NewAuthInterceptor svc m hm
    rcases extractToken_bad (NewAuthInterceptor svc) now ctx hbad with ⟨msg, he⟩ | ⟨tok, e, he, hv⟩
    · refine ⟨msg, fun handler st => ?_⟩
      simp only [AuthInterceptor.UnaryInterceptor, hpub, he, Bool.false_eq_true, if_false]
    · refine ⟨"invalid token", fun handler st => ?_⟩
      have hv' : svc.ValidateToken now tok = .error e := hv
      simp only [AuthInterceptor.UnaryInterceptor, hpub, he, Bool.false_eq_true, if_false]
      rw [show (NewAuthInterceptor svc).authService = svc from rfl, hv']
  · intro σ Srv srv ss m hm hbad
    have hpub := isPublic_NewAuthInterceptor svc m hm
    rcases extractToken_bad (NewAuthInterceptor svc) now ss.Context hbad with
      ⟨msg, he⟩ | ⟨tok, e, he, hv⟩
    · refine ⟨msg, fun handler st => ?_⟩
      simp only [AuthInterceptor.StreamInterceptor, hpub, he, Bool.false_eq_true, if_false]
    · refine ⟨"invalid token", fun handler st => ?_⟩
      have hv' : svc.ValidateToken now tok = .error e := hv
      simp only [AuthInterceptor.StreamInterceptor, hpub, he, Bool.false_eq_true, if_false]
      rw [show (NewAuthInterceptor svc).authService = svc from rfl, hv']
  · intro σ c hbad
    cases hh : httpAuthorization c with
    | none =>
      exact ⟨_, fun next st => JWTMiddleware_none svc now next c st hh⟩
    | some a =>
      rw [hh] at hbad
      by_cases ha : a = ""
      · refine ⟨"Missing authorization header", fun next st => ?_⟩
        rw [JWTMiddleware_some svc now next c st a hh, if_pos ha]; rfl
      · by_cases hp : HasPrefix a "Bearer " = false
        · refine ⟨"Invalid authorization header format", fun next st => ?_⟩
          rw [JWTMiddleware_some svc now next c st a hh, if_neg ha, if_pos hp]; rfl
        · by_cases ht : TrimPrefix a "Bearer " = ""
          · refine ⟨"Missing token", fun next st => ?_⟩
            rw [JWTMiddleware_some svc now next c st a hh, if_neg ha, if_neg hp, if_pos ht]; rfl
          · rcases hbad with h | h | ⟨e, he⟩
            · exact absurd h hp
            · exact absurd h ht
            · refine ⟨"Invalid token", fun next st => ?_⟩
              rw [JWTMiddleware_some svc now next c st a hh, if_neg ha, if_neg hp, if_neg ht,
                he]
              rfl

/-- C7 at a concrete input: a `GetUser` call without metadata. -/
theorem gate_refuses_bad_authorization_witness :
    ∃ msg, ∀ (handler : UnaryHandler Nat Unit Unit) (st : Nat),
      (NewAuthInterceptor (demoService "k")).UnaryInterceptor 0 ⟨none, []⟩ ()
          "/user.UserService/GetUser" handler st =
        (.error (.status .Unauthenticated msg), st) :=
  (gate_refuses_bad_authorization (demoService "k") 0).1 Nat Unit Unit ⟨none, []⟩ ()
    "/user.UserService/GetUser" (by decide) trivial

/-- C8: on a method of the public allow-list both interceptors call the
handler with the context (the stream) and the request they were given, and
return what the handler returns, whatever the metadata hold and whatever the
service would say about a token; `/user.UserService/CreateUser` is such a
method. -/
theorem public_method_passes_through {ρ : Type} (i : AuthInterceptor ρ) (now : Time) :
    (∀ (σ Req Resp : Type) (ctx : Context) (req : Req) (m : String)
      (handler : UnaryHandler σ Req Resp) (st : σ), i.isPublic m = true →
      i.UnaryInterceptor now ctx req m handler st = handler ctx req st) ∧
    (∀ (σ Srv : Type) (srv : Srv) (ss : ServerStream) (m : String)
      (handler : StreamHandler σ Srv) (st : σ), i.isPublic m = true →
      i.StreamInterceptor now srv ss m handler st = handler srv ss st) ∧
    (NewAuthInterceptor i.authService).isPublic "/user.UserService/CreateUser" = true := by
  refine ⟨?_, ?_, rfl⟩
  · intro σ Req Resp ctx req m handler st hpub
    simp only [AuthInterceptor.UnaryInterceptor, hpub, if_true]
  · intro σ Srv srv ss m handler st hpub
    simp only [AuthInterceptor.StreamInterceptor, hpub, if_true]

/-- C8 at a concrete input: `CreateUser` with a header that is no bearer
token reaches the handler unchanged. -/
theorem public_method_passes_through_witness :
    (NewAuthInterceptor (demoService "k")).UnaryInterceptor 0 (demoContext "Basic abc") ()
        "/user.UserService/CreateUser"
        (fun (ctx : Context) (_ : Unit) (st : Nat) => (Except.ok ctx, st + 1)) 0 =
      (.ok (demoContext "Basic abc"), 1) :=
  (public_method_passes_through (NewAuthInterceptor (demoService "k")) 0).1 Nat Unit Context
    (demoContext "Basic abc") () "/user.UserService/CreateUser" _ 0 rfl

theorem HasPrefix_append (p t : String) : HasPrefix (p ++ t) p = true := by
  show p.data.isPrefixOf (p.data ++ t.data) = true
  rw [List.isPrefixOf_iff_prefix]
  exact List.prefix_append _ _

theorem TrimPrefix_append (p t : String) : TrimPrefix (p ++ t) p = t := by
  rw [TrimPrefix, if_pos (HasPrefix_append p t)]
  show String.mk ((p.data ++ t.data).drop p.data.length) = t
  rw [List.drop_left]

theorem HasPrefix_other_scheme (scheme t : String) (hlen : scheme.length = 6)
    (hne : scheme ≠ "Bearer") : HasPrefix (scheme ++ " " ++ t) "Bearer " = false := by
  by_contra hcon
  have hp : HasPrefix (scheme ++ " " ++ t) "Bearer " = true := by
    cases h : HasPrefix (scheme ++ " " ++ t) "Bearer "
    · exact absurd h hcon
    · rfl
  have hpre : "Bearer ".data <+: (scheme.data ++ ([' '] ++ t.data)) := by
    have : "Bearer ".data.isPrefixOf ((scheme ++ " " ++ t).data) = true := hp
    rw [List.isPrefixOf_iff_prefix] at this
    simpa [String.data_append, List.append_assoc] using this
  have hl : scheme.data.length = 6 := hlen
  obtain ⟨r, hr⟩ := hpre
  have hsplit : "Bearer ".data = "Bearer".data ++ [' '] := rfl
  rw [hsplit, List.append_assoc] at hr
  have := List.append_inj_left hr (by rw [hl]; rfl)
  apply hne
  have hd : scheme.data = "Bearer".data := this.symm
  cases scheme
  simp only at hd
  rw [hd]

theorem ValidateToken_empty {ρ : Type} (svc : AuthService ρ) (now : Time) :
    svc.ValidateToken now "" = .error .ErrTokenMalformed := rfl

theorem append_ne_empty (p t : String) (hp : p ≠ "") : p ++ t ≠ "" := by
  intro h
  have hd : p.data ++ t.data = [] := congrArg String.data h
  have : p.data = [] := (List.append_eq_nil.mp hd).1
  apply hp
  cases p
  simp only at this
  rw [this]

theorem Locals_user_id (c : FiberCtx) (v w : Value) :
    ((c.SetLocals "user_id" v).SetLocals "email" w).Locals "user_id" = some v := by
  simp [FiberCtx.SetLocals, FiberCtx.Locals, List.lookup, List.filter]

theorem Locals_email (c : FiberCtx) (v w : Value) :
    ((c.SetLocals "user_id" v).SetLocals "email" w).Locals "email" = some w := by
  simp [FiberCtx.SetLocals, FiberCtx.Locals, List.lookup]

theorem Value_user_id (ctx : Context) (v w : Value) :
    ((ctx.WithValue "user_id" v).WithValue "email" w).Value "user_id" = some v := by
  simp [Context.WithValue, Context.Value, List.lookup]

theorem Value_email (ctx : Context) (v w : Value) :
    ((ctx.WithValue "user_id" v).WithValue "email" w).Value "email" = some w := by
  simp [Context.WithValue, Context.Value, List.lookup]

theorem UnaryInterceptor_some {ρ σ Req Resp : Type} (svc : AuthService ρ) (now : Time)
    (ctx : Context) (req : Req) (m : String) (handler : UnaryHandler σ Req Resp) (st : σ)
    (a : String) (hm : m ≠ "/user.UserService/CreateUser")
    (h : grpcAuthorization ctx = some a) :
    (NewAuthInterceptor svc).UnaryInterceptor now ctx req m handler st =
      if HasPrefix a "Bearer " = false then
        (.error (.status .Unauthenticated "invalid authorization header format"), st)
      else if TrimPrefix a "Bearer " = "" then
        (.error (.status .Unauthenticated "missing token"), st)
      else
        match svc.ValidateToken now (TrimPrefix a "Bearer ") with
        | .error _ => (.error (.status .Unauthenticated "invalid token"), st)
        | .ok claims =>
          handler ((ctx.WithValue "user_id" (.objectID claims.UserID)).WithValue "email"
            (.string claims.Email)) req st := by
  have hpub := isPublic_NewAuthInterceptor svc m hm
  simp only [AuthInterceptor.UnaryInterceptor, hpub, Bool.false_eq_true, if_false,
    extractToken_some (NewAuthInterceptor svc) ctx a h]
  cases hb : HasPrefix a "Bearer "
  · simp
  · by_cases ht : TrimPrefix a "Bearer " = ""
    · simp [ht]
    · simp only [ht, if_false, Bool.true_eq_false]
      rfl

theorem StreamInterceptor_some {ρ σ Srv : Type} (svc : AuthService ρ) (now : Time)
    (srv : Srv) (ss : ServerStream) (m : String) (handler : StreamHandler σ Srv) (st : σ)
    (a : String) (hm : m ≠ "/user.UserService/CreateUser")
    (h : grpcAuthorization ss.Context = some a) :
    (NewAuthInterceptor svc).StreamInterceptor now srv ss m handler st =
      if HasPrefix a "Bearer " = false then
        (some (.status .Unauthenticated "invalid authorization header format"), st)
      else if TrimPrefix a "Bearer " = "" then
        (some (.status .Unauthenticated "missing token"), st)
      else
        match svc.ValidateToken now (TrimPrefix a "Bearer ") with
        | .error _ => (some (.status .Unauthenticated "invalid token"), st)
        | .ok claims =>
          handler srv (.wrappedServerStream ss
            ((ss.Context.WithValue "user_id" (.objectID claims.UserID)).WithValue "email"
              (.string claims.Email))) st := by
  have hpub := isPublic_NewAuthInterceptor svc m hm
  simp only [AuthInterceptor.StreamInterceptor, hpub, Bool.false_eq_true, if_false,
    extractToken_some (NewAuthInterceptor svc) ss.Context a h]
  cases hb : HasPrefix a "Bearer "
  · simp
  · by_cases ht : TrimPrefix a "Bearer " = ""
    · simp [ht]
    · simp only [ht, if_false, Bool.true_eq_false]
      rfl

theorem httpDecision_eq {ρ : Type} (svc : AuthService ρ) (now : Time) (c : FiberCtx) :
    httpDecision svc now c = specDecision svc now (httpAuthorization c) := by
  unfold httpDecision
  cases hh : httpAuthorization c with
  | none => rw [JWTMiddleware_none svc now _ c none hh]; rfl
  | some a =>
    rw [JWTMiddleware_some svc now _ c none a hh]
    simp only [specDecision]
    by_cases ha : a = ""
    · subst ha; rfl
    · rw [if_neg ha]
      cases hb : HasPrefix a "Bearer "
      · simp
      · by_cases ht : TrimPrefix a "Bearer " = ""
        · simp [ht]
        · cases hv : svc.ValidateToken now (TrimPrefix a "Bearer ") with
          | error e => simp [ht]
          | ok claims => simp [ht, Locals_user_id, Locals_email]

theorem unaryDecision_eq {ρ : Type} (svc : AuthService ρ) (now : Time) (m : String)
    (ctx : Context) (hm : m ≠ "/user.UserService/CreateUser") :
    unaryDecision svc now m ctx = specDecision svc now (grpcAuthorization ctx) := by
  unfold unaryDecision
  cases hh : grpcAuthorization ctx with
  | none =>
    obtain ⟨msg, he⟩ := extractToken_none (NewAuthInterceptor svc) ctx hh
    simp only [AuthInterceptor.UnaryInterceptor, isPublic_NewAuthInterceptor svc m hm, he,
      Bool.false_eq_true, if_false]
    rfl
  | some a =>
    rw [UnaryInterceptor_some svc now ctx () m _ none a hm hh]
    simp only [specDecision]
    cases hb : HasPrefix a "Bearer "
    · simp
    · by_cases ht : TrimPrefix a "Bearer " = ""
      · simp [ht]
      · cases hv : svc.ValidateToken now (TrimPrefix a "Bearer ") with
        | error e => simp [ht]
        | ok claims => simp [ht, Value_user_id, Value_email]

theorem streamDecision_eq {ρ : Type} (svc : AuthService ρ) (now : Time) (m : String)
    (ss : ServerStream) (hm : m ≠ "/user.UserService/CreateUser") :
    streamDecision svc now m ss = specDecision svc now (grpcAuthorization ss.Context) := by
  unfold streamDecision
  cases hh : grpcAuthorization ss.Context with
  | none =>
    obtain ⟨msg, he⟩ := extractToken_none (NewAuthInterceptor svc) ss.Context hh
    simp only [AuthInterceptor.StreamInterceptor, isPublic_NewAuthInterceptor svc m hm, he,
      Bool.false_eq_true, if_false]
    rfl
  | some a =>
    rw [StreamInterceptor_some svc now () ss m _ none a hm hh]
    simp only [specDecision]
    cases hb : HasPrefix a "Bearer "
    · simp
    · by_cases ht : TrimPrefix a "Bearer " = ""
      · simp [ht]
      · cases hv : svc.ValidateToken now (TrimPrefix a "Bearer ") with
        | error e => simp [ht]
        | ok claims => simp [ht, ServerStream.Context, Value_user_id, Value_email]

theorem demo_ValidateToken (t : Time) (ht : t < demoT0 / Second * Second + tokenLifetime) :
    (demoService "k").ValidateToken t "HS256.payload.mac:HS256:k" =
      .ok ⟨demoID 171, "ann@x.com", 1700604800⟩ := by
  have h := ValidateToken_compact_tokenClaims (demoService "k") demoT0 t
    (demoID 171) "ann@x.com" (demo_ReadsBack "k" rfl)
  rw [exp_instant, if_pos (Nat.cast_lt.mpr ht)] at h
  exact h

theorem demo_now_lt : (1700000000500000000 : Nat) < demoT0 / Second * Second + tokenLifetime := by
  norm_num [demoT0, tokenLifetime, Hour, Second]

/-- C9 (as stated, refuted): the demo token is accepted by `ValidateToken`,
and a `GetUser` call or an HTTP request that carries it behind the scheme
word in lower case, `bearer`, is refused by the gate. -/
theorem lower_case_bearer_refused :
    (demoService "k").ValidateToken demoT0 "HS256.payload.mac:HS256:k" =
      .ok ⟨demoID 171, "ann@x.com", 1700604800⟩ ∧
    unaryDecision (demoService "k") demoT0 "/user.UserService/GetUser"
      (demoContext "bearer HS256.payload.mac:HS256:k") = .deny ∧
    streamDecision (demoService "k") demoT0 "/user.UserService/GetUser"
      (.transport 0 (demoContext "bearer HS256.payload.mac:HS256:k")) = .deny ∧
    httpDecision (demoService "k") demoT0
      (demoRequest "bearer HS256.payload.mac:HS256:k") = .deny :=
  ⟨demo_ValidateToken demoT0 demo_now_lt, rfl, rfl, rfl⟩

/-- C9 (amended): the gate matches the scheme exactly as `Bearer `. For
every token `t` that `ValidateToken` accepts, a request to a method that is
not public whose authorization header is `Bearer ` followed by `t` reaches
the handler with the id and the email of the claims of `t` under the keys
`user_id` and `email`, on the unary and the stream interceptor and on the
HTTP middleware; a header whose scheme word is six characters other than
`Bearer`, such as `bearer` or `BEARER`, is refused on all three. -/
theorem Bearer_scheme_is_exact {ρ : Type} (svc : AuthService ρ) (now : Time) :
    (∀ (t : String) (claims : JWTClaims), svc.ValidateToken now t = .ok claims →
      (∀ (σ Req Resp : Type) (ctx : Context) (req : Req) (m : String)
        (handler : UnaryHandler σ Req Resp) (st : σ), m ≠ "/user.UserService/CreateUser" →
        grpcAuthorization ctx = some ("Bearer " ++ t) →
        (NewAuthInterceptor svc).UnaryInterceptor now ctx req m handler st =
          handler ((ctx.WithValue "user_id" (.objectID claims.UserID)).WithValue "email"
            (.string claims.Email)) req st) ∧
      (∀ (σ Srv : Type) (srv : Srv) (ss : ServerStream) (m : String)
        (handler : StreamHandler σ Srv) (st : σ), m ≠ "/user.UserService/CreateUser" →
        grpcAuthorization ss.Context = some ("Bearer " ++ t) →
        (NewAuthInterceptor svc).StreamInterceptor now srv ss m handler st =
          handler srv (.wrappedServerStream ss
            ((ss.Context.WithValue "user_id" (.objectID claims.UserID)).WithValue "email"
              (.string claims.Email))) st) ∧
      (∀ (σ : Type) (c : FiberCtx) (next : FiberHandler σ) (st : σ),
        httpAuthorization c = some ("Bearer " ++ t) →
        JWTMiddleware svc now next c st =
          next ((c.SetLocals "user_id" (.objectID claims.UserID)).SetLocals "email"
            (.string claims.Email)) st)) ∧
    (∀ (scheme t : String), scheme.length = 6 → scheme ≠ "Bearer" →
      (∀ (σ Req Resp : Type) (ctx : Context) (req : Req) (m : String)
        (handler : UnaryHandler σ Req Resp) (st : σ), m ≠ "/user.UserService/CreateUser" →
        grpcAuthorization ctx = some (scheme ++ " " ++ t) →
        (NewAuthInterceptor svc).UnaryInterceptor now ctx req m handler st =
          (.error (.status .Unauthenticated "invalid authorization header format"), st)) ∧
      (∀ (σ Srv : Type) (srv : Srv) (ss : ServerStream) (m : String)
        (handler : StreamHandler σ Srv) (st : σ), m ≠ "/user.UserService/CreateUser" →
        grpcAuthorization ss.Context = some (scheme ++ " " ++ t) →
        (NewAuthInterceptor svc).StreamInterceptor now srv ss m handler st =
          (some (.status .Unauthenticated "invalid authorization header format"), st)) ∧
      (∀ (σ : Type) (c : FiberCtx) (next : FiberHandler σ) (st : σ),
        httpAuthorization c = some (scheme ++ " " ++ t) →
        JWTMiddleware svc now next c st =
          (none, c.StatusJSON 401 "Invalid authorization header format", st))) := by
  constructor
  · intro t claims hv
    have ht : t ≠ "" := by
      intro h
      rw [h, ValidateToken_empty] at hv
      exact absurd hv (by simp)
    have hp : ¬ HasPrefix ("Bearer " ++ t) "Bearer " = false := by
      rw [HasPrefix_append]; simp
    have htrim := TrimPrefix_append "Bearer " t
    refine ⟨?_, ?_, ?_⟩
    · intro σ Req Resp ctx req m handler st hm hh
      rw [UnaryInterceptor_some svc now ctx req m handler st _ hm hh, if_neg hp, htrim,
        if_neg ht, hv]
    · intro σ Srv srv ss m handler st hm hh
      rw [StreamInterceptor_some svc now srv ss m handler st _ hm hh, if_neg hp, htrim,
        if_neg ht, hv]
    · intro σ c next st hh
      rw [JWTMiddleware_some svc now next c st _ hh,
        if_neg (append_ne_empty "Bearer " t (by decide)), if_neg hp, htrim, if_neg ht, hv]
  · intro scheme t hlen hne
    have hp := HasPrefix_other_scheme scheme t hlen hne
    have hnonempty : scheme ++ " " ++ t ≠ "" := by
      rw [String.append_assoc]
      apply append_ne_empty
      intro h
      rw [h] at hlen
      exact absurd hlen (by decide)
    refine ⟨?_, ?_, ?_⟩
    · intro σ Req Resp ctx req m handler st hm hh
      rw [UnaryInterceptor_some svc now ctx req m handler st _ hm hh, if_pos hp]
    · intro σ Srv srv ss m handler st hm hh
      rw [StreamInterceptor_some svc now srv ss m handler st _ hm hh, if_pos hp]
    · intro σ c next st hh
      rw [JWTMiddleware_some svc now next c st _ hh, if_neg hnonempty, if_pos hp]
      rfl

/-- C9 (amended) at a concrete input: the demo token behind `Bearer `
reaches a unary handler, which returns the context it is given. -/
theorem Bearer_scheme_is_exact_witness :
    (NewAuthInterceptor (demoService "k")).UnaryInterceptor demoT0
        (demoContext ("Bearer " ++ "HS256.payload.mac:HS256:k")) () "/user.UserService/GetUser"
        (fun (ctx : Context) (_ : Unit) (st : Nat) => (Except.ok ctx, st + 1)) 0 =
      (.ok (((demoContext ("Bearer " ++ "HS256.payload.mac:HS256:k")).WithValue "user_id"
        (.objectID (demoID 171))).WithValue "email" (.string "ann@x.com")), 1) :=
  ((Bearer_scheme_is_exact (demoService "k") demoT0).1 "HS256.payload.mac:HS256:k"
    ⟨demoID 171, "ann@x.com", 1700604800⟩ (demo_ValidateToken demoT0 demo_now_lt)).1
    Nat Unit Context _ () "/user.UserService/GetUser" _ 0 (by decide) rfl

/-- C10: on a method that is not public, for one and the same authorization
input (no header, or any header string) the HTTP middleware, the unary
interceptor and the stream interceptor take the same decision, namely the
one of the single policy of the specification: the handler is reached in all
three or in none, and when it is reached the keys `user_id` and `email` are
bound to the same values, the id and the email of the claims. -/
theorem gates_agree {ρ : Type} (svc : AuthService ρ) (now : Time) (m : String)
    (h : Option String) (c : FiberCtx) (ctx : Context) (ss : ServerStream)
    (hm : m ≠ "/user.UserService/CreateUser")
    (hc : httpAuthorization c = h) (hctx : grpcAuthorization ctx = h)
    (hss : grpcAuthorization ss.Context = h) :
    httpDecision svc now c = unaryDecision svc now m ctx ∧
    unaryDecision svc now m ctx = streamDecision svc now m ss ∧
    httpDecision svc now c = specDecision svc now h := by
  rw [httpDecision_eq, unaryDecision_eq svc now m ctx hm, streamDecision_eq svc now m ss hm,
    hc, hctx, hss]
  exact ⟨rfl, rfl, rfl⟩

/-- C10 at a concrete input: the demo token behind `Bearer ` on a `GetUser`
call and on an HTTP request. -/
theorem gates_agree_witness :
    httpDecision (demoService "k") demoT0 (demoRequest "Bearer HS256.payload.mac:HS256:k") =
      unaryDecision (demoService "k") demoT0 "/user.UserService/GetUser"
        (demoContext "Bearer HS256.payload.mac:HS256:k") ∧
    unaryDecision (demoService "k") demoT0 "/user.UserService/GetUser"
        (demoContext "Bearer HS256.payload.mac:HS256:k") =
      streamDecision (demoService "k") demoT0 "/user.UserService/GetUser"
        (.transport 0 (demoContext "Bearer HS256.payload.mac:HS256:k")) ∧
    httpDecision (demoService "k") demoT0 (demoRequest "Bearer HS256.payload.mac:HS256:k") =
      specDecision (demoService "k") demoT0 (some "Bearer HS256.payload.mac:HS256:k") :=
  gates_agree (demoService "k") demoT0 "/user.UserService/GetUser"
    (some "Bearer HS256.payload.mac:HS256:k") _ _ _ (by decide) rfl rfl rfl

/-! ## Tokens the gates pass on -/

theorem bearerToken_some (h : Option String) (t : String) (ht : bearerToken h = some t) :
    ∃ a, h = some a ∧ ¬ HasPrefix a "Bearer " = false ∧ TrimPrefix a "Bearer " = t ∧
      ¬ TrimPrefix a "Bearer " = "" := by
  cases h with
  | none => simp [bearerToken] at ht
  | some a =>
    simp only [bearerToken] at ht
    by_cases hp : HasPrefix a "Bearer " = false
    · rw [if_pos hp] at ht; exact absurd ht (by simp)
    · rw [if_neg hp] at ht
      by_cases he : TrimPrefix a "Bearer " = ""
      · rw [if_pos he] at ht; exact absurd ht (by simp)
      · rw [if_neg he] at ht
        exact ⟨a, rfl, hp, Option.some.inj ht, he⟩

theorem UnaryInterceptor_token {ρ σ Req Resp : Type} (svc : AuthService ρ) (now : Time)
    (ctx : Context) (req : Req) (m : String) (handler : UnaryHandler σ Req Resp) (st : σ)
    (t : String) (hm : m ≠ "/user.UserService/CreateUser")
    (ht : bearerToken (grpcAuthorization ctx) = some t) :
    (NewAuthInterceptor svc).UnaryInterceptor now ctx req m handler st =
      match svc.ValidateToken now t with
      | .error _ => (.error (.status .Unauthenticated "invalid token"), st)
      | .ok claims =>
        handler ((ctx.WithValue "user_id" (.objectID claims.UserID)).WithValue "email"
          (.string claims.Email)) req st := by
  obtain ⟨a, ha, hp, htrim, hne⟩ := bearerToken_some _ t ht
  rw [UnaryInterceptor_some svc now ctx req m handler st a hm ha, if_neg hp, if_neg hne, htrim]

theorem StreamInterceptor_token {ρ σ Srv : Type} (svc : AuthService ρ) (now : Time)
    (srv : Srv) (ss : ServerStream) (m : String) (handler : StreamHandler σ Srv) (st : σ)
    (t : String) (hm : m ≠ "/user.UserService/CreateUser")
    (ht : bearerToken (grpcAuthorization ss.Context) = some t) :
    (NewAuthInterceptor svc).StreamInterceptor now srv ss m handler st =
      match svc.ValidateToken now t with
      | .error _ => (some (.status .Unauthenticated "invalid token"), st)
      | .ok claims =>
        handler srv (.wrappedServerStream ss
          ((ss.Context.WithValue "user_id" (.objectID claims.UserID)).WithValue "email"
            (.string claims.Email))) st := by
  obtain ⟨a, ha, hp, htrim, hne⟩ := bearerToken_some _ t ht
  rw [StreamInterceptor_some svc now srv ss m handler st a hm ha, if_neg hp, if_neg hne, htrim]

theorem JWTMiddleware_token {ρ σ : Type} (svc : AuthService ρ) (now : Time)
    (next : FiberHandler σ) (c : FiberCtx) (st : σ) (t : String)
    (ht : bearerToken (httpAuthorization c) = some t) :
    JWTMiddleware svc now next c st =
      match svc.ValidateToken now t with
      | .error _ => (none, c.StatusJSON StatusUnauthorized "Invalid token", st)
      | .ok claims =>
        next ((c.SetLocals "user_id" (.objectID claims.UserID)).SetLocals "email"
          (.string claims.Email)) st := by
  obtain ⟨a, ha, hp, htrim, hne⟩ := bearerToken_some _ t ht
  have hane : ¬ a = "" := by
    intro h
    rw [h] at hp
    exact hp rfl
  rw [JWTMiddleware_some svc now next c st a ha, if_neg hane, if_neg hp, if_neg hne, htrim]

/-- C11: on a method that is not public, whatever token the gate extracts and
whatever error `ValidateToken` gives for it, the result is the same: the gRPC
interceptors return the status `Unauthenticated` with the message
`invalid token`, the HTTP middleware answers 401 with the error
`Invalid token`; the handler is not reached. For two requests with two
rejected tokens the visible results are equal. -/
theorem gate_hides_rejection_reason {ρ : Type} (svc : AuthService ρ) (now : Time) :
    (∀ (σ Req Resp : Type) (ctx : Context) (req : Req) (m : String)
      (handler : UnaryHandler σ Req Resp) (st : σ) (t : String) (e : Error),
      m ≠ "/user.UserService/CreateUser" → bearerToken (grpcAuthorization ctx) = some t →
      svc.ValidateToken now t = .error e →
      (NewAuthInterceptor svc).UnaryInterceptor now ctx req m handler st =
        (.error (.status .Unauthenticated "invalid token"), st)) ∧
    (∀ (σ Srv : Type) (srv : Srv) (ss : ServerStream) (m : String)
      (handler : StreamHandler σ Srv) (st : σ) (t : String) (e : Error),
      m ≠ "/user.UserService/CreateUser" →
      bearerToken (grpcAuthorization ss.Context) = some t →
      svc.ValidateToken now t = .error e →
      (NewAuthInterceptor svc).StreamInterceptor now srv ss m handler st =
        (some (.status .Unauthenticated "invalid token"), st)) ∧
    (∀ (σ : Type) (c : FiberCtx) (next : FiberHandler σ) (st : σ) (t : String) (e : Error),
      bearerToken (httpAuthorization c) = some t → svc.ValidateToken now t = .error e →
      JWTMiddleware svc now next c st = (none, c.StatusJSON 401 "Invalid token", st)) ∧
    (∀ (σ : Type) (c₁ c₂ : FiberCtx) (next : FiberHandler σ) (st : σ) (t₁ t₂ : String)
      (e₁ e₂ : Error),
      bearerToken (httpAuthorization c₁) = some t₁ → svc.ValidateToken now t₁ = .error e₁ →
      bearerToken (httpAuthorization c₂) = some t₂ → svc.ValidateToken now t₂ = .error e₂ →
      (JWTMiddleware svc now next c₁ st).1 = (JWTMiddleware svc now next c₂ st).1 ∧
      (JWTMiddleware svc now next c₁ st).2.1.status =
        (JWTMiddleware svc now next c₂ st).2.1.status ∧
      (JWTMiddleware svc now next c₁ st).2.1.body =
        (JWTMiddleware svc now next c₂ st).2.1.body) := by
  have hhttp : ∀ (σ : Type) (c : FiberCtx) (next : FiberHandler σ) (st : σ) (t : String)
      (e : Error), bearerToken (httpAuthorization c) = some t →
      svc.ValidateToken now t = .error e →
      JWTMiddleware svc now next c st = (none, c.StatusJSON 401 "Invalid token", st) := by
    intro σ c next st t e ht hv
    rw [JWTMiddleware_token svc now next c st t ht, hv]
    rfl
  refine ⟨?_, ?_, hhttp, ?_⟩
  · intro σ Req Resp ctx req m handler st t e hm ht hv
    rw [UnaryInterceptor_token svc now ctx req m handler st t hm ht, hv]
  · intro σ Srv srv ss m handler st t e hm ht hv
    rw [StreamInterceptor_token svc now srv ss m handler st t hm ht, hv]
  · intro σ c₁ c₂ next st t₁ t₂ e₁ e₂ h₁ v₁ h₂ v₂
    rw [hhttp σ c₁ next st t₁ e₁ h₁ v₁, hhttp σ c₂ next st t₂ e₂ h₂ v₂]
    exact ⟨rfl, rfl, rfl⟩

/-- C11 at concrete inputs: a `GetUser` call with a token that is no JWT,
and one with the demo token after its expiry, get the same answer. -/
theorem gate_hides_rejection_reason_witness :
    (NewAuthInterceptor (demoService "k")).UnaryInterceptor 1800000000000000000
        (demoContext "Bearer garbage") () "/user.UserService/GetUser"
        (fun (_ : Context) (_ : Unit) (st : Nat) => (Except.ok (), st + 1)) 0 =
      (.error (.status .Unauthenticated "invalid token"), 0) ∧
    (NewAuthInterceptor (demoService "k")).UnaryInterceptor 1800000000000000000
        (demoContext "Bearer HS256.payload.mac:HS256:k") () "/user.UserService/GetUser"
        (fun (_ : Context) (_ : Unit) (st : Nat) => (Except.ok (), st + 1)) 0 =
      (.error (.status .Unauthenticated "invalid token"), 0) :=
  ⟨(gate_hides_rejection_reason (demoService "k") 1800000000000000000).1 Nat Unit Unit
      (demoContext "Bearer garbage") () "/user.UserService/GetUser" _ 0 "garbage"
      .ErrTokenMalformed (by decide) rfl rfl,
   (gate_hides_rejection_reason (demoService "k") 1800000000000000000).1 Nat Unit Unit
      (demoContext "Bearer HS256.payload.mac:HS256:k") () "/user.UserService/GetUser" _ 0
      "HS256.payload.mac:HS256:k" (.ErrTokenInvalidClaims [.ErrTokenExpired]) (by decide) rfl
      (by
        have h := ValidateToken_compact_tokenClaims (demoService "k") demoT0
          1800000000000000000 (demoID 171) "ann@x.com" (demo_ReadsBack "k" rfl)
        rw [exp_instant, if_neg] at h
        · exact h
        · rw [Nat.cast_lt]
          norm_num [demoT0, tokenLifetime, Hour, Second])⟩

theorem Value_other (ctx : Context) (v w : Value) (k : String)
    (h1 : k ≠ "user_id") (h2 : k ≠ "email") :
    ((ctx.WithValue "user_id" v).WithValue "email" w).Value k = ctx.Value k := by
  have b1 : (k == "user_id") = false := beq_eq_false_iff_ne.mpr h1
  have b2 : (k == "email") = false := beq_eq_false_iff_ne.mpr h2
  simp only [Context.WithValue, Context.Value, List.lookup, b1, b2]

/-- C14: when the gate extracts a bearer token from a request to a method
that is not public and `ValidateToken` accepts it with claims `c`, the unary
interceptor returns the result of one call of the handler on the request and
the context extended by `user_id = c.UserID` and `email = c.Email`; in that
context these two keys have these values, every other key has the value it
had, and the metadata are the same. The stream interceptor returns the
result of one call of the handler on the wrapped stream, and the method
`Context` of the wrapped stream is that extended context, a value fixed when
the stream is wrapped. -/
theorem gate_attaches_identity {ρ : Type} (svc : AuthService ρ) (now : Time) (t : String)
    (c : JWTClaims) (m : String) (hm : m ≠ "/user.UserService/CreateUser")
    (hv : svc.ValidateToken now t = .ok c) :
    (∀ (σ Req Resp : Type) (ctx : Context) (req : Req) (handler : UnaryHandler σ Req Resp)
      (st : σ), bearerToken (grpcAuthorization ctx) = some t →
      ∃ ctx' : Context,
        (NewAuthInterceptor svc).UnaryInterceptor now ctx req m handler st =
          handler ctx' req st ∧
        ctx'.Value "user_id" = some (.objectID c.UserID) ∧
        ctx'.Value "email" = some (.string c.Email) ∧
        (∀ k, k ≠ "user_id" → k ≠ "email" → ctx'.Value k = ctx.Value k) ∧
        ctx'.md = ctx.md) ∧
    (∀ (σ Srv : Type) (srv : Srv) (ss : ServerStream) (handler : StreamHandler σ Srv)
      (st : σ), bearerToken (grpcAuthorization ss.Context) = some t →
      ∃ ctx' : Context,
        (NewAuthInterceptor svc).StreamInterceptor now srv ss m handler st =
          handler srv (.wrappedServerStream ss ctx') st ∧
        (ServerStream.wrappedServerStream ss ctx').Context = ctx' ∧
        ctx'.Value "user_id" = some (.objectID c.UserID) ∧
        ctx'.Value "email" = some (.string c.Email) ∧
        (∀ k, k ≠ "user_id" → k ≠ "email" → ctx'.Value k = ss.Context.Value k) ∧
        ctx'.md = ss.Context.md) := by
  constructor
  · intro σ Req Resp ctx req handler st ht
    refine ⟨(ctx.WithValue "user_id" (.objectID c.UserID)).WithValue "email"
      (.string c.Email), ?_, Value_user_id _ _ _, Value_email _ _ _,
      fun k h1 h2 => Value_other _ _ _ k h1 h2, rfl⟩
    rw [UnaryInterceptor_token svc now ctx req m handler st t hm ht, hv]
  · intro σ Srv srv ss handler st ht
    refine ⟨(ss.Context.WithValue "user_id" (.objectID c.UserID)).WithValue "email"
      (.string c.Email), ?_, rfl, Value_user_id _ _ _, Value_email _ _ _,
      fun k h1 h2 => Value_other _ _ _ k h1 h2, rfl⟩
    rw [StreamInterceptor_token svc now srv ss m handler st t hm ht, hv]

/-- C14 at a concrete input: the demo token on a `GetUser` stream whose
handler counts its calls and hands back the context of the stream it got. -/
theorem gate_attaches_identity_witness :
    ∃ ctx' : Context,
      (NewAuthInterceptor (demoService "k")).StreamInterceptor demoT0 ()
          (.transport 7 (demoContext "Bearer HS256.payload.mac:HS256:k"))
          "/user.UserService/GetUser"
          (fun (_ : Unit) (ss : ServerStream) (st : Nat × Option Context) =>
            (none, (st.1 + 1, some ss.Context))) (0, none) =
        (none, (1, some ctx')) ∧
      ctx'.Value "user_id" = some (.objectID (demoID 171)) ∧
      ctx'.Value "email" = some (.string "ann@x.com") := by
  obtain ⟨ctx', h, hctx, hid, hemail, -, -⟩ :=
    (gate_attaches_identity (demoService "k") demoT0 "HS256.payload.mac:HS256:k"
      ⟨demoID 171, "ann@x.com", 1700604800⟩ "/user.UserService/GetUser" (by decide)
      (demo_ValidateToken demoT0 demo_now_lt)).2 (Nat × Option Context) Unit ()
      (.transport 7 (demoContext "Bearer HS256.payload.mac:HS256:k"))
      (fun (_ : Unit) (ss : ServerStream) (st : Nat × Option Context) =>
        (none, (st.1 + 1, some ss.Context))) (0, none) rfl
  refine ⟨ctx', ?_, hid, hemail⟩
  rw [h]
  simp only [hctx]

/-! ## Claims of an accepted token -/

theorem hexDecode_isSome : ∀ (l : List Char) (bs : List (Fin 256)), hexDecode l = some bs →
    ∀ ch ∈ l, (fromHexChar ch).isSome = true
  | [], _, _, ch, hch => absurd hch (List.not_mem_nil ch)
  | [_], _, h, _, _ => by simp [hexDecode] at h
  | c :: d :: rest, bs, h, ch, hch => by
    rw [hexDecode] at h
    cases hc : fromHexChar c with
    | none => simp [hc] at h
    | some hi =>
      cases hd : fromHexChar d with
      | none => simp [hc, hd] at h
      | some lo =>
        cases hr : hexDecode rest with
        | none => simp [hc, hd, hr] at h
        | some bs' =>
          rcases List.mem_cons.mp hch with rfl | hch
          · simp [hc]
          · rcases List.mem_cons.mp hch with rfl | hch
            · simp [hd]
            · exact hexDecode_isSome rest bs' hr ch hch

theorem ObjectIDFromHex_ok (hex : String) (id : ObjectID) (h : ObjectIDFromHex hex = .ok id) :
    hex.length = 24 ∧ ∀ ch ∈ hex.data, (fromHexChar ch).isSome = true := by
  unfold ObjectIDFromHex at h
  by_cases hl : hex.length = 24
  · rw [if_pos hl] at h
    cases hd : hexDecode hex.data with
    | none => simp [hd] at h
    | some bs => exact ⟨hl, hexDecode_isSome hex.data bs hd⟩
  · rw [if_neg hl] at h
    exact absurd h (by simp)

theorem Parse_ok_claims (lib : JWTLib) (now : Time) (tokenString : String)
    (keyFunc : Token → Except Error String) (token : Token)
    (h : Parse lib now tokenString keyFunc = .ok token) :
    ∃ t0 sstr, ParseUnverified lib tokenString = .ok (t0, sstr) ∧ token.Claims = t0.Claims := by
  unfold Parse at h
  cases hp : ParseUnverified lib tokenString with
  | error e => simp [hp] at h
  | ok r =>
    obtain ⟨t0, sstr⟩ := r
    refine ⟨t0, sstr, rfl, ?_⟩
    simp only [hp] at h
    cases hk : keyFunc t0 with
    | error e => simp [hk] at h
    | ok key =>
      simp only [hk] at h
      split at h
      · exact absurd h (by simp)
      · split at h
        · simp only [Except.ok.injEq] at h
          rw [← h]
        · exact absurd h (by simp)

theorem ValidateToken_ok_claims {ρ : Type} (s : AuthService ρ) (now : Time)
    (tokenString : String) (c : JWTClaims) (h : s.ValidateToken now tokenString = .ok c) :
    ∃ token hex, Parse s.jwt now tokenString s.keyFunc = .ok token ∧
      token.Claims.get "user_id" = some (.string hex) ∧ ObjectIDFromHex hex = .ok c.UserID ∧
      token.Claims.get "email" = some (.string c.Email) ∧
      token.Claims.get "exp" = some (.number c.Exp) := by
  unfold AuthService.ValidateToken at h
  cases hp : Parse s.jwt now tokenString s.keyFunc with
  | error e => simp [hp] at h
  | ok token =>
    simp only [hp] at h
    split at h
    · exact absurd h (by simp)
    · split at h
      · rename_i hex huid
        split at h
        · exact absurd h (by simp)
        · rename_i id hid
          split at h
          · rename_i email hemail
            split at h
            · rename_i exp hexp
              simp only [Except.ok.injEq] at h
              subst h
              exact ⟨token, hex, rfl, huid, hid, hemail, hexp⟩
            · exact absurd h (by simp)
          · exact absurd h (by simp)
      · exact absurd h (by simp)

/-- C13: for every token string that parses, if its claims have no `user_id`,
`email` or `exp`, or a `user_id` or `email` that is not a string, or a
`user_id` that is not twenty-four hexadecimal digits, or an `exp` that is
not a number, then `ValidateToken` returns an error and no claims, whether
the signature verifies or not. -/
theorem ValidateToken_bad_claims {ρ : Type} (s : AuthService ρ) (now : Time)
    (tokenString : String) (token : Token) (sstr : String)
    (hp : ParseUnverified s.jwt tokenString = .ok (token, sstr))
    (hbad : BadClaims token.Claims) :
    ∃ e, s.ValidateToken now tokenString = .error e := by
  cases hv : s.ValidateToken now tokenString with
  | error e => exact ⟨e, rfl⟩
  | ok c =>
    exfalso
    obtain ⟨tok, hex, hparse, huid, hid, hemail, hexp⟩ :=
      ValidateToken_ok_claims s now tokenString c hv
    obtain ⟨t0, sstr0, hp0, hcl⟩ := Parse_ok_claims _ _ _ _ _ hparse
    rw [hp] at hp0
    simp only [Except.ok.injEq, Prod.mk.injEq] at hp0
    rw [hcl, ← hp0.1] at huid hemail hexp
    rcases hbad with h | ⟨hex', hu, hnot⟩ | h | h
    · exact h hex huid
    · rw [hu] at huid
      simp only [Option.some.injEq, JSONValue.string.injEq] at huid
      subst huid
      exact hnot (ObjectIDFromHex_ok _ _ hid)
    · exact h _ hemail
    · exact h _ hexp

/-- C13 at a concrete input: a token with a good signature whose claims have
no `user_id`. -/
theorem ValidateToken_bad_claims_witness :
    ∃ e, (NewAuthService mockRepo (stubJWT demoClaimsNoUser) demoBcrypt "k").ValidateToken
      demoT0 "HS256.payload.mac:HS256:k" = .error e :=
  ValidateToken_bad_claims (NewAuthService mockRepo (stubJWT demoClaimsNoUser) demoBcrypt "k")
    demoT0 "HS256.payload.mac:HS256:k" ⟨.HS256, demoClaimsNoUser, "mac:HS256:k", false⟩
    "HS256.payload" rfl (Or.inl (fun hex h => by simp [demoClaimsNoUser, MapClaims.get, List.lookup] at h))

/-! ## A successful registration -/

theorem compact_ne_empty (lib : JWTLib) (m : SigningMethod) (claims : MapClaims)
    (key : String) : lib.compact m claims key ≠ "" := by
  intro h
  have hd := congrArg String.data h
  simp [JWTLib.compact, String.data_append] at hd

theorem Register_new {ρ : Type} (s : AuthService ρ) (salt hashed : String)
    (tCreated tIssued : Time) (req : RegisterRequest) (w w1 w2 : World ρ) (e : Option Error)
    (hget : s.userRepo.GetByEmail w req.Email = ((none, e), w1))
    (hhash : s.bcrypt.GenerateFromPassword salt req.Password = .ok hashed)
    (hcreate : s.userRepo.Create
      ⟨(w1.heap.alloc ⟨NilObjectID, req.Name, req.Email, hashed, tCreated⟩).1, w1.repo⟩
      w1.heap.next = (none, w2)) :
    s.Register salt tCreated tIssued req w =
      (.ok ⟨s.jwt.compact .HS256
          (tokenClaims tIssued (w2.heap.deref w1.heap.next).ID
            (w2.heap.deref w1.heap.next).Email) s.JWTSecret, w1.heap.next⟩,
       ⟨w2.heap.store w1.heap.next
          ⟨(w2.heap.deref w1.heap.next).ID, (w2.heap.deref w1.heap.next).Name,
            (w2.heap.deref w1.heap.next).Email, "", (w2.heap.deref w1.heap.next).CreatedAt⟩,
        w2.repo⟩) := by
  simp only [Heap.alloc] at hcreate
  simp only [AuthService.Register, hget, hhash, Heap.alloc, hcreate, AuthService.generateJWT,
    SignedString]

/-- C12: when `GetByEmail` finds no user for the email, hashing succeeds and
`Create` succeeds and leaves name and email of the record as they are,
`Register` returns a token that is not empty and a user with the name and
the email of the request and an empty password. On the repository of the
tests this is so for every request whose email no stored user has. -/
theorem Register_returns_user :
    (∀ (ρ : Type) (s : AuthService ρ) (salt hashed : String) (tCreated tIssued : Time)
      (req : RegisterRequest) (w w1 w2 : World ρ) (e : Option Error),
      s.userRepo.GetByEmail w req.Email = ((none, e), w1) →
      s.bcrypt.GenerateFromPassword salt req.Password = .ok hashed →
      s.userRepo.Create
        ⟨(w1.heap.alloc ⟨NilObjectID, req.Name, req.Email, hashed, tCreated⟩).1, w1.repo⟩
        w1.heap.next = (none, w2) →
      (w2.heap.deref w1.heap.next).Name = req.Name →
      (w2.heap.deref w1.heap.next).Email = req.Email →
      ∃ resp w', s.Register salt tCreated tIssued req w = (.ok resp, w') ∧
        resp.Token ≠ "" ∧ (w'.heap.deref resp.User).Name = req.Name ∧
        (w'.heap.deref resp.User).Email = req.Email ∧
        (w'.heap.deref resp.User).Password = "") ∧
    (∀ (jwt : JWTLib) (bc : BcryptLib) (secret salt hashed : String) (tCreated tIssued : Time)
      (req : RegisterRequest) (w : World mockUserRepository),
      w.repo.users.find? (emailIs w.heap req.Email) = none →
      bc.GenerateFromPassword salt req.Password = .ok hashed →
      ∃ resp w', (NewAuthService mockRepo jwt bc secret).Register salt tCreated tIssued req w =
          (.ok resp, w') ∧
        resp.Token ≠ "" ∧ (w'.heap.deref resp.User).Name = req.Name ∧
        (w'.heap.deref resp.User).Email = req.Email ∧
        (w'.heap.deref resp.User).Password = "") := by
  constructor
  · intro ρ s salt hashed tCreated tIssued req w w1 w2 e hget hhash hcreate hname hemail
    refine ⟨_, _, Register_new s salt hashed tCreated tIssued req w w1 w2 e hget hhash hcreate,
      compact_ne_empty _ _ _ _, ?_, ?_, ?_⟩
    · simpa [Heap.deref, Heap.store] using hname
    · simpa [Heap.deref, Heap.store] using hemail
    · simp [Heap.deref, Heap.store]
  · intro jwt bc secret salt hashed tCreated tIssued req w hnone hhash
    refine ⟨_, _, Register_mock_new jwt bc secret salt hashed tCreated tIssued req w hnone hhash,
      compact_ne_empty _ _ _ _, ?_, ?_, ?_⟩ <;> simp [afterRegister, Heap.deref]

/-- C12 at the input of `TestAuthService_Register`. -/
theorem Register_returns_user_witness :
    ∃ resp w', (demoService "k").Register "salt" demoT0 demoT0
          ⟨"John Doe", "john@example.com", "password123"⟩ demoWorld = (.ok resp, w') ∧
      resp.Token ≠ "" ∧ (w'.heap.deref resp.User).Name = "John Doe" ∧
      (w'.heap.deref resp.User).Email = "john@example.com" ∧
      (w'.heap.deref resp.User).Password = "" :=
  Register_returns_user.2 demoJWT demoBcrypt "k" "salt" _ demoT0 demoT0
    ⟨"John Doe", "john@example.com", "password123"⟩ demoWorld rfl rfl

/-! ## The user service on the mock repository -/

theorem lookup_mapSet_self (m : List (ObjectID × Ptr)) (k : ObjectID) (v : Ptr) :
    (mapSet m k v).lookup k = some v := by
  unfold mapSet
  split
  · rename_i h
    induction m with
    | nil => simp at h
    | cons e rest ih =>
      obtain ⟨a, b⟩ := e
      rw [List.map_cons]
      by_cases hk : (a == k) = true
      · rw [if_pos hk]
        simp only [List.lookup, beq_self_eq_true]
      · rw [if_neg hk]
        have hne : (k == a) = false := by
          cases hke : (k == a)
          · rfl
          · rw [beq_iff_eq] at hke
            rw [hke, beq_self_eq_true] at hk
            exact absurd rfl hk
        have hrest : rest.any (fun e => e.1 == k) = true := by
          simpa [List.any_cons, hk] using h
        simp only [List.lookup, hne]
        exact ih hrest
  · rename_i h
    have hnone : m.lookup k = none := by
      induction m with
      | nil => rfl
      | cons e rest ih =>
        obtain ⟨a, b⟩ := e
        have hab : (a == k) = false := by
          cases hak : (a == k)
          · rfl
          · exact absurd (by simp [List.any_cons, hak]) h
        have hka : (k == a) = false := by
          cases hke : (k == a)
          · rfl
          · rw [beq_iff_eq] at hke
            rw [hke, beq_self_eq_true] at hab
            exact absurd hab (by simp)
        have hrest : ¬ rest.any (fun e => e.1 == k) = true := by
          intro hr
          exact h (by simp [List.any_cons, hr])
        simp only [List.lookup, hka]
        exact ih hrest
    rw [List.lookup_append, hnone]
    simp [List.lookup]

theorem mem_of_lookup (m : List (ObjectID × Ptr)) (k : ObjectID) (v : Ptr)
    (h : m.lookup k = some v) : (k, v) ∈ m := by
  induction m with
  | nil => simp [List.lookup] at h
  | cons e rest ih =>
    obtain ⟨a, b⟩ := e
    cases hka : (k == a)
    · simp only [List.lookup, hka] at h
      exact List.mem_cons_of_mem _ (ih h)
    · simp only [List.lookup, hka, Option.some.injEq] at h
      rw [beq_iff_eq] at hka
      rw [hka, h]
      exact List.mem_cons_self _ _

theorem lookup_filter_ne (m : List (ObjectID × Ptr)) (id k : ObjectID) :
    (m.filter (fun e => !(e.1 == id))).lookup k = if k = id then none else m.lookup k := by
  induction m with
  | nil => simp [List.lookup]
  | cons e rest ih =>
    obtain ⟨a, b⟩ := e
    by_cases ha : a = id
    · subst ha
      have : (!(a == a)) = false := by simp
      simp only [List.filter_cons, this, Bool.false_eq_true, if_false, ih]
      by_cases hk : k = a
      · simp [hk]
      · have hka : (k == a) = false := beq_eq_false_iff_ne.mpr hk
        simp only [hk, if_false, List.lookup, hka]
    · have hb : (!(a == id)) = true := by simp [ha]
      simp only [List.filter_cons, hb, if_true]
      cases hka : (k == a)
      · simp only [List.lookup, hka, ih]
      · rw [beq_iff_eq] at hka
        subst hka
        simp only [List.lookup, beq_self_eq_true, ha, if_false]

theorem CreateUser_mock (now : Time) (name email password : String)
    (w : World mockUserRepository) :
    (NewUserService mockRepo).CreateUser now name email password w =
      ((some w.heap.next, none),
        ⟨⟨Function.update w.heap.obj w.heap.next
            ⟨w.repo.newObjectID w.repo.issued, name, email, password, now⟩, w.heap.next + 1⟩,
          { w.repo with
            users := mapSet w.repo.users (w.repo.newObjectID w.repo.issued) w.heap.next,
            issued := w.repo.issued + 1 }⟩) := by
  simp only [UserService.CreateUser, NewUserService, mockRepo, mockUserRepository.Create,
    Heap.alloc, Heap.store, Heap.deref, Function.update_same, Function.update_idem]

theorem UpdateUser_mock (id : ObjectID) (name email : String) (w : World mockUserRepository)
    (p : Ptr) (hl : w.repo.users.lookup id = some p) (hp : p ≠ w.heap.next) :
    (NewUserService mockRepo).UpdateUser id name email w =
      ((some p, none),
        ⟨⟨Function.update
            (Function.update w.heap.obj w.heap.next ⟨NilObjectID, name, email, "", zeroTime⟩) p
            ⟨(w.heap.obj p).ID, name, email, (w.heap.obj p).Password, (w.heap.obj p).CreatedAt⟩,
          w.heap.next + 1⟩, w.repo⟩) := by
  simp only [UserService.UpdateUser, NewUserService, mockRepo, mockUserRepository.Update,
    mockUserRepository.GetByID, Heap.alloc, Heap.store, Heap.deref, hl, Function.update_same,
    Function.update_noteq hp]

/-- C15 (as stated, refuted): at the input of `TestUserService_CreateUser`
the user `CreateUser` returns has the password it was given, and
`GetUserByID` then returns it with that password as well. -/
theorem CreateUser_returns_password :
    ((NewUserService mockRepo).CreateUser demoT0 "John Doe" "john@example.com" "password123"
        demoWorld).1 = (some 0, none) ∧
    (((NewUserService mockRepo).CreateUser demoT0 "John Doe" "john@example.com" "password123"
        demoWorld).2.heap.deref 0).Password = "password123" ∧
    ((NewUserService mockRepo).GetUserByID (demoID 171)
        ((NewUserService mockRepo).CreateUser demoT0 "John Doe" "john@example.com" "password123"
          demoWorld).2).1 = (some 0, none) :=
  ⟨rfl, rfl, rfl⟩

/-- C15 (amended): the user service hands on the `Password` field as the
repository holds it. On the repository of the tests `CreateUser` returns the
user with the password it was given; `GetUserByID` and `GetAllUsers` return
the stored pointers and leave the world as it is; `UpdateUser` returns the
stored user with the password it had. Over every repository `GetUserByID`
and `GetAllUsers` return what `GetByID` and `GetAll` of the repository
return. -/
theorem UserService_keeps_password :
    (∀ (now : Time) (name email password : String) (w : World mockUserRepository),
      ∃ p w', (NewUserService mockRepo).CreateUser now name email password w =
          ((some p, none), w') ∧
        (w'.heap.deref p).Password = password) ∧
    (∀ (id : ObjectID) (w : World mockUserRepository),
      (NewUserService mockRepo).GetUserByID id w = ((w.repo.users.lookup id, none), w)) ∧
    (∀ (w : World mockUserRepository),
      (NewUserService mockRepo).GetAllUsers w = ((w.repo.users.map Prod.snd, none), w)) ∧
    (∀ (id : ObjectID) (name email : String) (w : World mockUserRepository) (p : Ptr),
      w.repo.users.lookup id = some p → p < w.heap.next →
      ∃ w', (NewUserService mockRepo).UpdateUser id name email w = ((some p, none), w') ∧
        (w'.heap.deref p).Password = (w.heap.deref p).Password) ∧
    (∀ (ρ : Type) (r : UserRepository ρ) (id : ObjectID) (w : World ρ),
      (NewUserService r).GetUserByID id w = r.GetByID w id) ∧
    (∀ (ρ : Type) (r : UserRepository ρ) (w : World ρ),
      (NewUserService r).GetAllUsers w = r.GetAll w) := by
  refine ⟨?_, fun _ _ => rfl, fun _ => rfl, ?_, fun _ _ _ _ => rfl, fun _ _ _ => rfl⟩
  · intro now name email password w
    refine ⟨_, _, CreateUser_mock now name email password w, ?_⟩
    simp [Heap.deref]
  · intro id name email w p hl hp
    refine ⟨_, UpdateUser_mock id name email w p hl (Nat.ne_of_lt hp), ?_⟩
    simp [Heap.deref]

/-- C15 (amended) at a concrete input: updating Ann in `demoWorldAnn` returns
her with the hash that was stored. -/
theorem UserService_keeps_password_witness :
    ∃ w', (NewUserService mockRepo).UpdateUser (demoID 171) "Anna" "anna@x.com" demoWorldAnn =
        ((some 0, none), w') ∧
      (w'.heap.deref 0).Password = (demoWorldAnn.heap.deref 0).Password :=
  UserService_keeps_password.2.2.2.1 (demoID 171) "Anna" "anna@x.com" demoWorldAnn 0 rfl
    (by decide)

/-- C17: on a well-formed repository of the tests that holds a user under
the id `i`, `UpdateUser(i, name, email)` returns that user, now with the
given name and email and with the id, password and creation time it had; the
map of the repository is the same, and the record of every user stored under
another id is the same. -/
theorem UpdateUser_changes_name_and_email (i : ObjectID) (name email : String)
    (w : World mockUserRepository) (p : Ptr) (hwf : WellFormed w)
    (hl : w.repo.users.lookup i = some p) :
    ∃ w', (NewUserService mockRepo).UpdateUser i name email w = ((some p, none), w') ∧
      w'.heap.deref p =
        ⟨(w.heap.deref p).ID, name, email, (w.heap.deref p).Password,
          (w.heap.deref p).CreatedAt⟩ ∧
      w'.repo.users = w.repo.users ∧
      ∀ e ∈ w.repo.users, e.1 ≠ i → w'.heap.deref e.2 = w.heap.deref e.2 := by
  have hmem := mem_of_lookup _ _ _ hl
  have hp : p < w.heap.next := hwf.1 _ hmem
  refine ⟨_, UpdateUser_mock i name email w p hl (Nat.ne_of_lt hp), ?_, rfl, ?_⟩
  · simp [Heap.deref]
  · intro e he hne
    have h1 : e.2 ≠ p := hwf.2 e he (i, p) hmem hne
    have h2 : e.2 ≠ w.heap.next := Nat.ne_of_lt (hwf.1 e he)
    simp [Heap.deref, Function.update_noteq h1, Function.update_noteq h2]

theorem demoWorldTwo_WellFormed : WellFormed demoWorldTwo := by
  constructor
  · intro e he
    simp [demoWorldTwo] at he
    rcases he with rfl | rfl <;> simp [demoWorldTwo]
  · intro e₁ h₁ e₂ h₂ hne
    simp [demoWorldTwo] at h₁ h₂
    rcases h₁ with rfl | rfl <;> rcases h₂ with rfl | rfl <;> simp at hne ⊢

/-- C17 at a concrete input: Ann is renamed in a repository that holds Ann
and Bob. -/
theorem UpdateUser_changes_name_and_email_witness :
    ∃ w', (NewUserService mockRepo).UpdateUser (demoID 171) "Anna" "anna@x.com" demoWorldTwo =
        ((some 0, none), w') ∧
      w'.heap.deref 0 =
        ⟨(demoWorldTwo.heap.deref 0).ID, "Anna", "anna@x.com",
          (demoWorldTwo.heap.deref 0).Password, (demoWorldTwo.heap.deref 0).CreatedAt⟩ ∧
      w'.repo.users = demoWorldTwo.repo.users ∧
      ∀ e ∈ demoWorldTwo.repo.users, e.1 ≠ demoID 171 →
        w'.heap.deref e.2 = demoWorldTwo.heap.deref e.2 :=
  UpdateUser_changes_name_and_email (demoID 171) "Anna" "anna@x.com" demoWorldTwo 0
    demoWorldTwo_WellFormed rfl

/-- C18: on the repository of the tests, when `DeleteUser(id)` returns
without error, `GetUserByID(id)` returns no user afterwards, and for every
other id it returns the pointer it returned before; the heap, and so every
record, is the same. -/
theorem DeleteUser_removes_only_that_user (id : ObjectID) (w w' : World mockUserRepository)
    (h : (NewUserService mockRepo).DeleteUser id w = (none, w')) :
    (NewUserService mockRepo).GetUserByID id w' = ((none, none), w') ∧
    (∀ id', id' ≠ id →
      (NewUserService mockRepo).GetUserByID id' w' = ((w.repo.users.lookup id', none), w')) ∧
    w'.heap = w.heap := by
  have hw : w' = ⟨w.heap, { w.repo with users := w.repo.users.filter (fun e => !(e.1 == id)) }⟩ := by
    have := congrArg Prod.snd h
    exact this.symm
  subst hw
  refine ⟨?_, ?_, rfl⟩
  · simp only [UserService.GetUserByID, NewUserService, mockRepo, mockUserRepository.GetByID,
      lookup_filter_ne, if_true]
  · intro id' hne
    simp only [UserService.GetUserByID, NewUserService, mockRepo, mockUserRepository.GetByID,
      lookup_filter_ne, hne, if_false]

/-- C18 at the shape of `TestUserService_DeleteUser`: Ann is deleted from a
repository that holds Ann and Bob. -/
theorem DeleteUser_removes_only_that_user_witness :
    (NewUserService mockRepo).GetUserByID (demoID 171)
        ((NewUserService mockRepo).DeleteUser (demoID 171) demoWorldTwo).2 =
      ((none, none), ((NewUserService mockRepo).DeleteUser (demoID 171) demoWorldTwo).2) ∧
    (NewUserService mockRepo).GetUserByID (demoID 172)
        ((NewUserService mockRepo).DeleteUser (demoID 171) demoWorldTwo).2 =
      ((some 1, none), ((NewUserService mockRepo).DeleteUser (demoID 171) demoWorldTwo).2) :=
  ⟨(DeleteUser_removes_only_that_user (demoID 171) demoWorldTwo _ rfl).1,
   (DeleteUser_removes_only_that_user (demoID 171) demoWorldTwo _ rfl).2.1 (demoID 172)
    (by decide)⟩

theorem WellFormed_newMockUserRepository (heap : Heap) (ids : Nat → ObjectID) :
    WellFormed (newMockUserRepository heap ids) := by
  constructor
  · intro e he; simp [newMockUserRepository] at he
  · intro e₁ h₁; simp [newMockUserRepository] at h₁

theorem WellFormed_CreateUser (now : Time) (name email password : String)
    (w : World mockUserRepository) (hwf : WellFormed w) :
    WellFormed ((NewUserService mockRepo).CreateUser now name email password w).2 := by
  rw [CreateUser_mock]
  constructor
  · intro e he
    rcases snd_of_mem_mapSet _ _ _ e he with h | h
    · exact Nat.lt_succ_of_lt (hwf.1 e h)
    · rw [h]; exact Nat.lt_succ_self _
  · intro e₁ h₁ e₂ h₂ hne
    rcases snd_of_mem_mapSet _ _ _ e₁ h₁ with a₁ | a₁ <;>
      rcases snd_of_mem_mapSet _ _ _ e₂ h₂ with a₂ | a₂
    · exact hwf.2 e₁ a₁ e₂ a₂ hne
    · rw [a₂]; exact Nat.ne_of_lt (hwf.1 e₁ a₁)
    · rw [a₁]; exact (Nat.ne_of_lt (hwf.1 e₂ a₂)).symm
    · rw [a₁, a₂] at hne; exact absurd rfl hne

theorem WellFormed_DeleteUser (id : ObjectID) (w : World mockUserRepository)
    (hwf : WellFormed w) : WellFormed ((NewUserService mockRepo).DeleteUser id w).2 := by
  constructor
  · intro e he
    exact hwf.1 e (List.mem_of_mem_filter he)
  · intro e₁ h₁ e₂ h₂ hne
    exact hwf.2 e₁ (List.mem_of_mem_filter h₁) e₂ (List.mem_of_mem_filter h₂) hne

/-! ## Failures of the store -/

/-- C16 (as stated, refuted): with the Mongo adapter and a collection whose
every operation fails with `connection refused`, `Login` returns
`invalid credentials`, the very error a wrong password and an unknown email
get on a collection that works. -/
theorem Login_store_failure_is_invalid_credentials :
    (mongoRepo.GetByEmail (demoCollection (some "connection refused")) "ann@x.com").1 =
      (none, some (.store "connection refused")) ∧
    (demoMongoService.Login demoT0 ⟨"ann@x.com", "secret1"⟩
        (demoCollection (some "connection refused"))).1 =
      .error (.errorsNew "invalid credentials") ∧
    (demoMongoService.Login demoT0 ⟨"ann@x.com", "wrong"⟩ (demoCollection none)).1 =
      .error (.errorsNew "invalid credentials") ∧
    (demoMongoService.Login demoT0 ⟨"nobody@x.com", "secret1"⟩ (demoCollection none)).1 =
      .error (.errorsNew "invalid credentials") :=
  ⟨rfl, rfl, rfl, rfl⟩

/-- C16 (amended): whenever `GetByEmail` returns an error, `Login` returns
the error `invalid credentials` and no response, with the world `GetByEmail`
left; this is the error an unknown email and a wrong password get, so a
failure of the store is not told apart from them. -/
theorem Login_store_error {ρ : Type} (s : AuthService ρ) (now : Time) (req : AuthRequest)
    (w : World ρ) (e : Error) (h : (s.userRepo.GetByEmail w req.Email).1.2 = some e) :
    s.Login now req w =
      (.error (.errorsNew "invalid credentials"), (s.userRepo.GetByEmail w req.Email).2) := by
  simp only [AuthService.Login, h]

/-- C16 (amended) at a concrete input: the collection that refuses the
connection. -/
theorem Login_store_error_witness :
    demoMongoService.Login demoT0 ⟨"ann@x.com", "secret1"⟩
        (demoCollection (some "connection refused")) =
      (.error (.errorsNew "invalid credentials"), demoCollection (some "connection refused")) :=
  Login_store_error demoMongoService demoT0 ⟨"ann@x.com", "secret1"⟩
    (demoCollection (some "connection refused")) (.store "connection refused") rfl

/-! ## The gRPC `CreateUser` and what reaches the store -/

/-- C19: a `CreateUser` request whose name, email or password is empty gets
the status `InvalidArgument` and no user, and the world is the one before the
call, whatever the services of the server are: `Register` is not called. A
request with all three fields filled is answered from the result of
`Register` on exactly these three values: its world, its error as an
`Internal` status, or its user as the gRPC user. -/
theorem CreateUser_validates_input {ρ : Type} (s : UserServer ρ) (salt : String)
    (tCreated tIssued : Time) (req : CreateUserRequest) (w : World ρ) :
    (req.Name = "" ∨ req.Email = "" ∨ req.Password = "" →
      ∀ s' : UserServer ρ, s'.CreateUser salt tCreated tIssued req w =
        (.error (.status .InvalidArgument "name, email, and password are required"), w)) ∧
    (req.Name ≠ "" → req.Email ≠ "" → req.Password ≠ "" →
      (s.CreateUser salt tCreated tIssued req w).2 =
        (s.authService.Register salt tCreated tIssued
          ⟨req.Name, req.Email, req.Password⟩ w).2 ∧
      (∀ err, (s.authService.Register salt tCreated tIssued
          ⟨req.Name, req.Email, req.Password⟩ w).1 = .error err →
        (s.CreateUser salt tCreated tIssued req w).1 =
          .error (.status .Internal err.message)) ∧
      (∀ resp, (s.authService.Register salt tCreated tIssued
          ⟨req.Name, req.Email, req.Password⟩ w).1 = .ok resp →
        (s.CreateUser salt tCreated tIssued req w).1 =
          .ok ⟨⟨((s.CreateUser salt tCreated tIssued req w).2.heap.deref resp.User).ID.Hex,
              ((s.CreateUser salt tCreated tIssued req w).2.heap.deref resp.User).Name,
              ((s.CreateUser salt tCreated tIssued req w).2.heap.deref resp.User).Email,
              ((s.CreateUser salt tCreated tIssued req w).2.heap.deref resp.User).CreatedAt⟩,
            "User created successfully"⟩)) := by
  constructor
  · intro h s'
    simp only [UserServer.CreateUser, h, if_true]
  · intro h1 h2 h3
    have hcond : ¬ (req.Name = "" ∨ req.Email = "" ∨ req.Password = "") := by
      rintro (h | h | h)
      · exact h1 h
      · exact h2 h
      · exact h3 h
    simp only [UserServer.CreateUser, hcond, if_false]
    cases hr : s.authService.Register salt tCreated tIssued
        ⟨req.Name, req.Email, req.Password⟩ w with
    | mk res w1 =>
      cases res with
      | error err =>
        refine ⟨rfl, ?_, ?_⟩
        · intro err' he
          simp only [Except.error.injEq] at he
          rw [he]
        · intro resp he
          exact absurd he (by simp)
      | ok resp =>
        refine ⟨rfl, ?_, ?_⟩
        · intro err' he
          exact absurd he (by simp)
        · intro resp' he
          simp only [Except.ok.injEq] at he
          rw [he]

/-- C19 at concrete inputs: a request without a password on the empty
repository of the tests. -/
theorem CreateUser_validates_input_witness :
    (NewUserServer (NewUserService mockRepo) (demoService "k")).CreateUser "salt" demoT0 demoT0
        ⟨"Ann", "ann@x.com", ""⟩ demoWorld =
      (.error (.status .InvalidArgument "name, email, and password are required"), demoWorld) :=
  (CreateUser_validates_input (NewUserServer (NewUserService mockRepo) (demoService "k"))
    "salt" demoT0 demoT0 ⟨"Ann", "ann@x.com", ""⟩ demoWorld).1 (Or.inr (Or.inr rfl)) _

theorem Register_recording_ok {ρ : Type} (r : UserRepository ρ) (jwt : JWTLib) (bc : BcryptLib)
    (secret salt : String) (tCreated tIssued : Time) (req : RegisterRequest)
    (w w' : World (Recorded ρ)) (resp : AuthResponse)
    (h : (NewAuthService (recording r) jwt bc secret).Register salt tCreated tIssued req w =
      (.ok resp, w')) :
    ∃ hashed, bc.GenerateFromPassword salt req.Password = .ok hashed ∧
      w'.repo.calls = w.repo.calls ++
        [.GetByEmail req.Email,
         .Create ⟨NilObjectID, req.Name, req.Email, hashed, tCreated⟩] := by
  simp only [AuthService.Register, NewAuthService, recording, World.record, World.inner,
    AuthService.generateJWT, SignedString] at h
  split at h
  · exact absurd h (by simp)
  · cases hg : bc.GenerateFromPassword salt req.Password with
    | error e => simp [hg] at h
    | ok hashed =>
      refine ⟨hashed, rfl, ?_⟩
      simp only [hg, Heap.alloc, Heap.deref, Function.update_same] at h
      split at h
      · exact absurd h (by simp)
      · simp only [Prod.mk.injEq, Except.ok.injEq] at h
        rw [← h.2]
        simp [List.append_assoc]

/-- C20: for every successful `Register`, the repository has been called
twice, with `GetByEmail` for the email and then with `Create` for a record
that has the name and the email of the request, the reading of the clock as
creation time, and as password the value `GenerateFromPassword` returned for
the password of the request; with a hasher that keeps its contract, this
value verifies against the password and is not the password. -/
theorem Register_stores_hash {ρ : Type} (r : UserRepository ρ) (jwt : JWTLib) (bc : BcryptLib)
    (secret salt : String) (tCreated tIssued : Time) (req : RegisterRequest)
    (w w' : World (Recorded ρ)) (resp : AuthResponse) (hbc : bc.Sound)
    (h : (NewAuthService (recording r) jwt bc secret).Register salt tCreated tIssued req w =
      (.ok resp, w')) :
    ∃ hashed, bc.GenerateFromPassword salt req.Password = .ok hashed ∧
      w'.repo.calls = w.repo.calls ++
        [.GetByEmail req.Email,
         .Create ⟨NilObjectID, req.Name, req.Email, hashed, tCreated⟩] ∧
      CompareHashAndPassword bc hashed req.Password = none ∧ hashed ≠ req.Password := by
  obtain ⟨hashed, hg, hcalls⟩ :=
    Register_recording_ok r jwt bc secret salt tCreated tIssued req w w' resp h
  exact ⟨hashed, hg, hcalls, hbc salt req.Password hashed hg⟩

theorem demoBcrypt_Sound : demoBcrypt.Sound := by
  intro salt password hashed h
  have hh : hashed = demoHashHeader ++ password := by
    simp only [demoBcrypt, Except.ok.injEq] at h
    exact h.symm
  subst hh
  have hlen : (demoHashHeader ++ password).length = 60 + password.length := by
    rw [String.length_append]
    rfl
  constructor
  · have hnot : ¬ (demoHashHeader ++ password).length < minHashSize := by
      rw [hlen]
      unfold minHashSize
      omega
    simp only [CompareHashAndPassword, hnot, if_false, demoBcrypt, if_true]
  · intro heq
    have := congrArg String.length heq
    rw [hlen] at this
    omega

/-- C20 at a concrete input: Ann registers on the empty repository of the
tests; the record handed to `Create` carries the demo hash of `secret1`. -/
theorem Register_stores_hash_witness :
    ∃ hashed, demoBcrypt.GenerateFromPassword "salt" "secret1" = .ok hashed ∧
      ((NewAuthService (recording mockRepo) demoJWT demoBcrypt "k").Register "salt" demoT0
          demoT0 ⟨"Ann", "ann@x.com", "secret1"⟩ demoRecorded).2.repo.calls =
        demoRecorded.repo.calls ++
          [.GetByEmail "ann@x.com",
           .Create ⟨NilObjectID, "Ann", "ann@x.com", hashed, demoT0⟩] ∧
      CompareHashAndPassword demoBcrypt hashed "secret1" = none ∧ hashed ≠ "secret1" :=
  Register_stores_hash mockRepo demoJWT demoBcrypt "k" "salt" demoT0 demoT0
    ⟨"Ann", "ann@x.com", "secret1"⟩ demoRecorded _ _ demoBcrypt_Sound rfl

/-! ## Signing methods outside the HMAC family -/

theorem keyFunc_ok {ρ : Type} (s : AuthService ρ) (token : Token) (key : String)
    (h : s.keyFunc token = .ok key) : token.Method.isHMAC = true ∧ key = s.JWTSecret := by
  unfold AuthService.keyFunc at h
  cases hm : token.Method.isHMAC
  · simp [hm] at h
  · simp only [hm, Bool.not_true, Bool.false_eq_true, if_false, Except.ok.injEq] at h
    exact ⟨rfl, h.symm⟩

theorem Parse_not_HMAC {ρ : Type} (s : AuthService ρ) (now : Time) (tokenString : String)
    (token : Token) (sstr : String)
    (hp : ParseUnverified s.jwt tokenString = .ok (token, sstr))
    (hm : token.Method.isHMAC = false) :
    Parse s.jwt now tokenString s.keyFunc =
      .error (.ErrTokenUnverifiable "error while executing keyfunc") := by
  rw [Parse, hp]
  simp only [AuthService.keyFunc, hm, Bool.not_false, if_true]

theorem ParseUnverified_alg (lib : JWTLib) (tokenString : String) (seg : Segments)
    (alg : String) (m : SigningMethod)
    (hdots : tokenString.data.count '.' = 2)
    (hdec : lib.DecodeSegments tokenString = some seg) (halg : seg.alg = some alg)
    (hm : GetSigningMethod alg = some m) :
    ParseUnverified lib tokenString =
      .ok (⟨m, seg.claims, seg.signature, false⟩, seg.signingString) := by
  simp only [ParseUnverified, hdots, hdec, halg, hm, ne_eq, not_true_eq_false, if_false]

theorem GetSigningMethod_some (alg : String) (m : SigningMethod)
    (h : GetSigningMethod alg = some m) : m.Alg = alg := by
  have := List.find?_some h
  exact beq_iff_eq.mp this

theorem ParseUnverified_no_alg (lib : JWTLib) (tokenString : String) (seg : Segments)
    (hdots : tokenString.data.count '.' = 2)
    (hdec : lib.DecodeSegments tokenString = some seg) (halg : seg.alg = none) :
    ParseUnverified lib tokenString =
      .error (.ErrTokenUnverifiable "signing method (alg) is unspecified") := by
  simp only [ParseUnverified, hdots, hdec, halg, ne_eq, not_true_eq_false, if_false]

theorem ParseUnverified_unknown_alg (lib : JWTLib) (tokenString : String) (seg : Segments)
    (alg : String) (hdots : tokenString.data.count '.' = 2)
    (hdec : lib.DecodeSegments tokenString = some seg) (halg : seg.alg = some alg)
    (hm : GetSigningMethod alg = none) :
    ParseUnverified lib tokenString =
      .error (.ErrTokenUnverifiable "signing method (alg) is unavailable") := by
  simp only [ParseUnverified, hdots, hdec, halg, hm, ne_eq, not_true_eq_false, if_false]

theorem Parse_of_ParseUnverified_error (lib : JWTLib) (now : Time) (tokenString : String)
    (keyFunc : Token → Except Error String) (e : Error)
    (h : ParseUnverified lib tokenString = .error e) :
    Parse lib now tokenString keyFunc = .error e := by
  rw [Parse, h]

/-- C22: the key function supplies the secret only for a method of the HMAC
family. For every token string with three segments whose header does not
name `HS256`, `HS384` or `HS512` (it names `none`, an RSA or ECDSA method,
an unknown method, or nothing), whatever its claims and its signature are,
`ValidateToken` returns the error `ErrTokenUnverifiable` and no claims; for a
registered method outside the family the error is the one raised for the
failing key function. -/
theorem ValidateToken_rejects_other_methods {ρ : Type} (s : AuthService ρ) (now : Time) :
    (∀ (token : Token) (key : String), s.keyFunc token = .ok key →
      token.Method.isHMAC = true) ∧
    (∀ (tokenString : String) (seg : Segments),
      tokenString.data.count '.' = 2 → s.jwt.DecodeSegments tokenString = some seg →
      seg.alg ≠ some "HS256" → seg.alg ≠ some "HS384" → seg.alg ≠ some "HS512" →
      ∃ msg, s.ValidateToken now tokenString = .error (.ErrTokenUnverifiable msg)) ∧
    (∀ (tokenString : String) (seg : Segments) (alg : String) (m : SigningMethod),
      tokenString.data.count '.' = 2 → s.jwt.DecodeSegments tokenString = some seg →
      seg.alg = some alg → GetSigningMethod alg = some m → m.isHMAC = false →
      s.ValidateToken now tokenString =
        .error (.ErrTokenUnverifiable "error while executing keyfunc")) := by
  have hreg : ∀ (tokenString : String) (seg : Segments) (alg : String) (m : SigningMethod),
      tokenString.data.count '.' = 2 → s.jwt.DecodeSegments tokenString = some seg →
      seg.alg = some alg → GetSigningMethod alg = some m → m.isHMAC = false →
      s.ValidateToken now tokenString =
        .error (.ErrTokenUnverifiable "error while executing keyfunc") := by
    intro tokenString seg alg m hdots hdec halg hm hnot
    apply ValidateToken_of_Parse_error
    exact Parse_not_HMAC s now tokenString _ _
      (ParseUnverified_alg s.jwt tokenString seg alg m hdots hdec halg hm) hnot
  refine ⟨fun token key h => (keyFunc_ok s token key h).1, ?_, hreg⟩
  intro tokenString seg hdots hdec h256 h384 h512
  cases halg : seg.alg with
  | none =>
    exact ⟨_, ValidateToken_of_Parse_error s now tokenString _
      (Parse_of_ParseUnverified_error _ _ _ _ _
        (ParseUnverified_no_alg s.jwt tokenString seg hdots hdec halg))⟩
  | some alg =>
    cases hm : GetSigningMethod alg with
    | none =>
      exact ⟨_, ValidateToken_of_Parse_error s now tokenString _
        (Parse_of_ParseUnverified_error _ _ _ _ _
          (ParseUnverified_unknown_alg s.jwt tokenString seg alg hdots hdec halg hm))⟩
    | some m =>
      have hname := GetSigningMethod_some alg m hm
      have hnot : m.isHMAC = false := by
        rw [halg] at h256 h384 h512
        cases m <;> first
          | rfl
          | (exfalso; first
              | exact h256 (by rw [← hname]; rfl)
              | exact h384 (by rw [← hname]; rfl)
              | exact h512 (by rw [← hname]; rfl))
      exact ⟨_, hreg tokenString seg alg m hdots hdec halg hm hnot⟩

/-- C22 at concrete inputs: a token whose header says `none`, with no
signature, and the claims of a valid token. -/
theorem ValidateToken_rejects_other_methods_witness :
    (NewAuthService mockRepo (algJWT "none" demoClaims) demoBcrypt "k").ValidateToken demoT0
        "none.payload." =
      .error (.ErrTokenUnverifiable "error while executing keyfunc") :=
  (ValidateToken_rejects_other_methods
    (NewAuthService mockRepo (algJWT "none" demoClaims) demoBcrypt "k") demoT0).2.2
    "none.payload." ⟨"none.payload", some "none", demoClaims, ""⟩ "none" .none rfl rfl rfl rfl
    rfl

/-! ## A user that is not there -/

theorem Hex_ne_empty (id : ObjectID) : id.Hex ≠ "" := by
  intro h
  have hl : id.Hex.length = 24 := by
    show (id.bytes.flatMap hexByte).length = 24
    rw [length_flatMap_hexByte, id.size]
  rw [h] at hl
  exact absurd hl (by decide)

theorem GetUser_of_GetUserByID {ρ : Type} (s : UserServer ρ) (id : ObjectID) (w : World ρ) :
    s.GetUser ⟨id.Hex⟩ w =
      match s.userService.GetUserByID id w with
      | ((_, some _), w1) => (.returned (.error (.status .NotFound "user not found")), w1)
      | ((none, none), w1) => (.panic nilDereference, w1)
      | ((some domainUser, none), w1) =>
        (.returned (.ok ⟨⟨(w1.heap.deref domainUser).ID.Hex, (w1.heap.deref domainUser).Name,
          (w1.heap.deref domainUser).Email, (w1.heap.deref domainUser).CreatedAt⟩⟩), w1) := by
  simp only [UserServer.GetUser, Hex_ne_empty id, if_false, ObjectIDFromHex_Hex]

theorem Get_of_GetUserByID {ρ : Type} (h : UserHandler ρ) (id : ObjectID) (w : World ρ) :
    h.Get id.Hex w =
      match h.userService.GetUserByID id w with
      | ((_, some _), w1) => (.returned ⟨StatusNotFound, .error "User not found"⟩, w1)
      | ((none, none), w1) => (.panic nilDereference, w1)
      | ((some user, none), w1) =>
        (.returned ⟨StatusOK, .user ((w1.heap.store user
            ⟨(w1.heap.deref user).ID, (w1.heap.deref user).Name, (w1.heap.deref user).Email, "",
              (w1.heap.deref user).CreatedAt⟩).deref user)⟩,
          ⟨w1.heap.store user
            ⟨(w1.heap.deref user).ID, (w1.heap.deref user).Name, (w1.heap.deref user).Email, "",
              (w1.heap.deref user).CreatedAt⟩, w1.repo⟩) := by
  simp only [UserHandler.Get, ObjectIDFromHex_Hex]

/-- C21 (the code): for an id whose hexadecimal form is asked for, when
`GetUserByID` returns an error, as the Mongo adapter does for an id without
a document, `UserServer.GetUser` returns the status `NotFound` and
`UserHandler.Get` answers 404. When the repository returns a nil user with a
nil error, as the repository of the tests does for an id it does not hold,
both go on to use the nil pointer and panic. -/
theorem GetUser_absent :
    (∀ (ρ : Type) (us : UserService ρ) (as : AuthService ρ) (id : ObjectID) (w : World ρ)
      (e : Error), (us.GetUserByID id w).1.2 = some e →
      (NewUserServer us as).GetUser ⟨id.Hex⟩ w =
        (.returned (.error (.status .NotFound "user not found")), (us.GetUserByID id w).2) ∧
      (NewUserHandler us).Get id.Hex w =
        (.returned ⟨404, .error "User not found"⟩, (us.GetUserByID id w).2)) ∧
    (∀ (id : ObjectID) (w : World Collection), w.repo.failure = none →
      w.repo.docs.find? (fun d => d.ID == id) = none →
      ((NewUserService mongoRepo).GetUserByID id w).1.2 = some .ErrNoDocuments) ∧
    (∀ (as : AuthService mockUserRepository) (id : ObjectID) (w : World mockUserRepository),
      w.repo.users.lookup id = none →
      (NewUserServer (NewUserService mockRepo) as).GetUser ⟨id.Hex⟩ w =
        (.panic nilDereference, w) ∧
      (NewUserHandler (NewUserService mockRepo)).Get id.Hex w = (.panic nilDereference, w)) := by
  refine ⟨?_, ?_, ?_⟩
  · intro ρ us as id w e he
    rw [GetUser_of_GetUserByID, Get_of_GetUserByID]
    simp only [NewUserServer, NewUserHandler]
    cases hr : us.GetUserByID id w with
    | mk res w1 =>
      obtain ⟨p, err⟩ := res
      rw [hr] at he
      simp only at he
      subst he
      cases p <;> exact ⟨rfl, rfl⟩
  · intro id w hf hnone
    simp only [UserService.GetUserByID, NewUserService, mongoRepo, mongoUserRepository.GetByID,
      findOne, hf, hnone]
  · intro as id w hl
    rw [GetUser_of_GetUserByID, Get_of_GetUserByID]
    have hg : (NewUserService mockRepo).GetUserByID id w = ((none, none), w) := by
      show ((w.repo.users.lookup id, none), w) = _
      rw [hl]
    simp only [NewUserServer, NewUserHandler, hg, and_self]

/-- C21 at concrete inputs: `GetUser` and `Get` for the id `ab...ab` on the
empty repository of the tests panic; on a Mongo collection without that id
they answer `NotFound` and 404. -/
theorem GetUser_absent_witness :
    ((NewUserServer (NewUserService mockRepo) (demoService "k")).GetUser
        ⟨"abababababababababababab"⟩ demoWorld =
      (.panic nilDereference, demoWorld) ∧
     (NewUserHandler (NewUserService mockRepo)).Get "abababababababababababab" demoWorld =
      (.panic nilDereference, demoWorld)) ∧
    ((NewUserServer (NewUserService mongoRepo) demoMongoService).GetUser
        ⟨"cdcdcdcdcdcdcdcdcdcdcdcd"⟩ (demoCollection none) =
      (.returned (.error (.status .NotFound "user not found")), demoCollection none) ∧
     (NewUserHandler (NewUserService mongoRepo)).Get "cdcdcdcdcdcdcdcdcdcdcdcd"
        (demoCollection none) =
      (.returned ⟨404, .error "User not found"⟩, demoCollection none)) :=
  ⟨GetUser_absent.2.2 (demoService "k") (demoID 171) demoWorld rfl,
   GetUser_absent.1 Collection (NewUserService mongoRepo) demoMongoService (demoID 205)
    (demoCollection none) .ErrNoDocuments
    (GetUser_absent.2.1 (demoID 205) (demoCollection none) rfl rfl)⟩

end BackendHexagonal
